import Mathlib

/-
Verification development for the codedoc-ai repository.

This file gives a shallow embedding, in Lean 4, of the core pipeline of
codedoc-ai: identity assignment (src/codedoc_ai/utils/ids.py and the
indexer's own id maker), index building (src/codedoc_ai/indexer/__init__.py),
semantic search (src/codedoc_ai/search/__init__.py), the embedder payloads
(src/codedoc_ai/embedder/__init__.py), the doc-comment scan of the Rust and
C++ extractors, and the error-recovery control flow of the per-language
extraction drivers.

Modelling conventions:
- Python strings are Lean Strings; the Python helpers used by the code
  (strip, lstrip/rstrip with a character set, replace, slicing, splitlines,
  lower, pathlib's Path.parts for POSIX paths) are re-implemented below with
  structural recursion over character lists, following CPython semantics at
  the call sites the code exercises.
- hashlib.md5 and uuid.uuid5 (SHA-1 based) are implemented in full over
  Nat byte values (RFC 1321 / RFC 3174 / RFC 4122), so ids are computed
  exactly as the code computes them.
- The tree-sitter parse, the sentence-transformers embedding model and the
  ChromaDB vector store are external collaborators; they enter the model at
  their interface boundary: parse outcomes and embedding outcomes are
  explicit parameters, and the vector store is an association list of
  collections with the operations the code invokes (get, get_or_create,
  delete-all, add, query-nearest).  `time.time()` is an explicit clock
  parameter indexed by how many times it has been called.
- Embedding vectors and distances are modelled over Rat; nothing proved
  here depends on floating-point rounding.
- Python prints are modelled as a list of structured log events carrying
  exactly the numbers the code prints; exceptions are Except values.
-/

set_option maxRecDepth 100000

/-! ### Python string helpers (character-list based, structurally recursive) -/

/-- Python `str.lstrip(chars)`: drop characters of the set from the left. -/
def pyLStripSet (set : List Char) (s : String) : String :=
  String.mk (s.data.dropWhile (fun c => set.contains c))

/-- Python `str.rstrip(chars)`: drop characters of the set from the right. -/
def pyRStripSet (set : List Char) (s : String) : String :=
  String.mk ((s.data.reverse.dropWhile (fun c => set.contains c)).reverse)

/-- Python `str.strip(chars)`. -/
def pyStripSet (set : List Char) (s : String) : String :=
  pyRStripSet set (pyLStripSet set s)

/-- The whitespace set of Python's no-argument strip. -/
def pyWhitespace : List Char := [' ', '\t', '\n', '\r', Char.ofNat 11, Char.ofNat 12]

/-- Python `str.strip()` with no argument. -/
def pyStrip (s : String) : String := pyStripSet pyWhitespace s

/-- Python `str.rstrip()` with no argument. -/
def pyRStrip (s : String) : String := pyRStripSet pyWhitespace s

/-- Python `str.lower()` (ASCII case suffices at every call site). -/
def pyLower (s : String) : String := String.mk (s.data.map Char.toLower)

/-- Python `s.startswith(pre)`. -/
def pyStartsWith (s pre : String) : Bool := pre.data.isPrefixOf s.data

/-- Python slicing `s[:n]` (by code point, as CPython slices by code point). -/
def pyTake (s : String) (n : Nat) : String := String.mk (s.data.take n)

/-- Non-overlapping left-to-right replacement, fuelled by the input length;
this is CPython's `str.replace` scan for a non-empty pattern. -/
def replChars (pat rep : List Char) : Nat → List Char → List Char
  | 0, l => l
  | fuel + 1, l =>
    match l with
    | [] => []
    | c :: rest =>
      if pat.isPrefixOf l then rep ++ replChars pat rep fuel (l.drop pat.length)
      else c :: replChars pat rep fuel rest

/-- Python `s.replace(pat, rep)`.  (The code never calls it with an empty
pattern, so the empty-pattern insertion behaviour of CPython is not needed;
we return `s` unchanged in that case.) -/
def pyReplace (s pat rep : String) : String :=
  if pat.data.isEmpty then s
  else String.mk (replChars pat.data rep.data s.data.length s.data)

/-- Split a character list on a separator character (keeping empty pieces). -/
def splitOnCharAux (c : Char) : List Char → List Char → List (List Char)
  | [], cur => [cur.reverse]
  | x :: xs, cur =>
    if x = c then cur.reverse :: splitOnCharAux c xs []
    else splitOnCharAux c xs (x :: cur)

/-- Python `str.splitlines()` restricted to `\n` separators (the only
separator occurring in the comment texts the code feeds it): a trailing
newline yields no trailing empty line, and `""` yields `[]`. -/
def pySplitLines (s : String) : List String :=
  if s.data.isEmpty then []
  else
    let parts := splitOnCharAux '\n' s.data []
    let parts := if s.data.getLast? = some '\n' then parts.dropLast else parts
    parts.map String.mk

/-- `pathlib.PurePosixPath(p).parts`: split on `/`, drop empty and `.`
components, and keep a leading `/` as the anchor part. -/
def pyPathParts (p : String) : List String :=
  let comps := ((splitOnCharAux '/' p.data []).map String.mk).filter
    (fun c => !(c == "" || c == "."))
  if pyStartsWith p "/" then "/" :: comps else comps

/-- `pathlib.PurePosixPath(p).name` (`""` for the root path). -/
def pyPathName (p : String) : String :=
  let last := (pyPathParts p).getLast?.getD ""
  if last = "/" then "" else last

/-! ### 32-bit arithmetic over Nat, UTF-8, MD5, SHA-1, UUID5 -/

def mask32 : Nat := 0xFFFFFFFF

def add32 (a b : Nat) : Nat := (a + b) &&& mask32

def rotl32 (x n : Nat) : Nat := ((x <<< n) ||| (x >>> (32 - n))) &&& mask32

def not32 (x : Nat) : Nat := mask32 ^^^ x

/-- UTF-8 encoding of one code point as byte values. -/
def utf8Char (c : Char) : List Nat :=
  let n := c.toNat
  if n < 0x80 then [n]
  else if n < 0x800 then [0xC0 ||| (n >>> 6), 0x80 ||| (n &&& 0x3F)]
  else if n < 0x10000 then
    [0xE0 ||| (n >>> 12), 0x80 ||| ((n >>> 6) &&& 0x3F), 0x80 ||| (n &&& 0x3F)]
  else
    [0xF0 ||| (n >>> 18), 0x80 ||| ((n >>> 12) &&& 0x3F),
     0x80 ||| ((n >>> 6) &&& 0x3F), 0x80 ||| (n &&& 0x3F)]

/-- `s.encode("utf-8")` as a list of byte values. -/
def utf8Bytes (s : String) : List Nat := (s.data.map utf8Char).flatten

/-- `k` little-endian bytes of `n`. -/
def lenBytesLE : Nat → Nat → List Nat
  | 0, _ => []
  | k + 1, n => (n &&& 0xFF) :: lenBytesLE k (n >>> 8)

/-- `k` big-endian bytes of `n`. -/
def lenBytesBE (k n : Nat) : List Nat := (lenBytesLE k n).reverse

/-- Merkle–Damgård padding to a multiple of 64 bytes; the bit length is
appended little-endian for MD5 and big-endian for SHA-1. -/
def padMsg (le : Bool) (msg : List Nat) : List Nat :=
  let ml := 8 * msg.length
  let zeros := (56 + 64 - (msg.length + 1) % 64) % 64
  msg ++ [0x80] ++ List.replicate zeros 0 ++ (if le then lenBytesLE 8 ml else lenBytesBE 8 ml)

/-- Split a list into chunks of `n` elements (fuelled). -/
def chunksAux (n : Nat) {α : Type} : Nat → List α → List (List α)
  | 0, _ => []
  | _, [] => []
  | fuel + 1, l => l.take n :: chunksAux n fuel (l.drop n)

def chunks64 (l : List Nat) : List (List Nat) := chunksAux 64 l.length l

def leWord (b : List Nat) (i : Nat) : Nat :=
  b.getD (4 * i) 0 ||| (b.getD (4 * i + 1) 0 <<< 8) |||
  (b.getD (4 * i + 2) 0 <<< 16) ||| (b.getD (4 * i + 3) 0 <<< 24)

def beWord (b : List Nat) (i : Nat) : Nat :=
  (b.getD (4 * i) 0 <<< 24) ||| (b.getD (4 * i + 1) 0 <<< 16) |||
  (b.getD (4 * i + 2) 0 <<< 8) ||| b.getD (4 * i + 3) 0

/-- The 64 MD5 round constants (RFC 1321). -/
def md5K : List Nat :=
  [0xd76aa478, 0xe8c7b756, 0x242070db, 0xc1bdceee, 0xf57c0faf, 0x4787c62a, 0xa8304613, 0xfd469501,
   0x698098d8, 0x8b44f7af, 0xffff5bb1, 0x895cd7be, 0x6b901122, 0xfd987193, 0xa679438e, 0x49b40821,
   0xf61e2562, 0xc040b340, 0x265e5a51, 0xe9b6c7aa, 0xd62f105d, 0x02441453, 0xd8a1e681, 0xe7d3fbc8,
   0x21e1cde6, 0xc33707d6, 0xf4d50d87, 0x455a14ed, 0xa9e3e905, 0xfcefa3f8, 0x676f02d9, 0x8d2a4c8a,
   0xfffa3942, 0x8771f681, 0x6d9d6122, 0xfde5380c, 0xa4beea44, 0x4bdecfa9, 0xf6bb4b60, 0xbebfbc70,
   0x289b7ec6, 0xeaa127fa, 0xd4ef3085, 0x04881d05, 0xd9d4d039, 0xe6db99e5, 0x1fa27cf8, 0xc4ac5665,
   0xf4292244, 0x432aff97, 0xab9423a7, 0xfc93a039, 0x655b59c3, 0x8f0ccc92, 0xffeff47d, 0x85845dd1,
   0x6fa87e4f, 0xfe2ce6e0, 0xa3014314, 0x4e0811a1, 0xf7537e82, 0xbd3af235, 0x2ad7d2bb, 0xeb86d391]

/-- The per-round left-rotation amounts of MD5. -/
def md5S : List Nat :=
  [7,12,17,22,7,12,17,22,7,12,17,22,7,12,17,22,
   5,9,14,20,5,9,14,20,5,9,14,20,5,9,14,20,
   4,11,16,23,4,11,16,23,4,11,16,23,4,11,16,23,
   6,10,15,21,6,10,15,21,6,10,15,21,6,10,15,21]

def md5Step (chunk : List Nat) (st : Nat × Nat × Nat × Nat) (i : Nat) : Nat × Nat × Nat × Nat :=
  let (a, b, c, d) := st
  let (f, g) :=
    if i < 16 then ((b &&& c) ||| (not32 b &&& d), i)
    else if i < 32 then ((d &&& b) ||| (not32 d &&& c), (5 * i + 1) % 16)
    else if i < 48 then (b ^^^ c ^^^ d, (3 * i + 5) % 16)
    else (c ^^^ (b ||| not32 d), (7 * i) % 16)
  let f' := add32 (add32 (add32 f a) (md5K.getD i 0)) (leWord chunk g)
  (d, add32 b (rotl32 f' (md5S.getD i 0)), b, c)

def md5Chunk (st : Nat × Nat × Nat × Nat) (chunk : List Nat) : Nat × Nat × Nat × Nat :=
  let (a0, b0, c0, d0) := st
  let (a, b, c, d) := (List.range 64).foldl (md5Step chunk) (a0, b0, c0, d0)
  (add32 a0 a, add32 b0 b, add32 c0 c, add32 d0 d)

/-- The 16-byte MD5 digest of a byte sequence. -/
def md5Bytes (msg : List Nat) : List Nat :=
  let st := (chunks64 (padMsg true msg)).foldl md5Chunk
    (0x67452301, 0xefcdab89, 0x98badcfe, 0x10325476)
  lenBytesLE 4 st.1 ++ lenBytesLE 4 st.2.1 ++ lenBytesLE 4 st.2.2.1 ++ lenBytesLE 4 st.2.2.2

/-- Lowercase hex digit (index into the usual digit table). -/
def hexChar (n : Nat) : Char := "0123456789abcdef*".data.getD n '*'

def byteHex (b : Nat) : List Char := [hexChar ((b >>> 4) &&& 0xF), hexChar (b &&& 0xF)]

def bytesHexChars (bs : List Nat) : List Char := (bs.map byteHex).flatten

/-- `hashlib.md5(s.encode("utf-8")).hexdigest()`. -/
def md5hex (s : String) : String := String.mk (bytesHexChars (md5Bytes (utf8Bytes s)))

/-- SHA-1 message schedule: 80 words from one 64-byte chunk. -/
def sha1W (chunk : List Nat) : List Nat :=
  (List.range 80).foldl (fun acc i =>
    if i < 16 then acc ++ [beWord chunk i]
    else acc ++ [rotl32 (acc.getD (i - 3) 0 ^^^ acc.getD (i - 8) 0 ^^^
                         acc.getD (i - 14) 0 ^^^ acc.getD (i - 16) 0) 1]) []

def sha1Step (w : List Nat) (st : Nat × Nat × Nat × Nat × Nat) (i : Nat) :
    Nat × Nat × Nat × Nat × Nat :=
  let (a, b, c, d, e) := st
  let (f, k) :=
    if i < 20 then ((b &&& c) ||| (not32 b &&& d), 0x5A827999)
    else if i < 40 then (b ^^^ c ^^^ d, 0x6ED9EBA1)
    else if i < 60 then ((b &&& c) ||| (b &&& d) ||| (c &&& d), 0x8F1BBCDC)
    else (b ^^^ c ^^^ d, 0xCA62C1D6)
  let temp := add32 (add32 (add32 (add32 (rotl32 a 5) f) e) k) (w.getD i 0)
  (temp, a, rotl32 b 30, c, d)

def sha1Chunk (st : Nat × Nat × Nat × Nat × Nat) (chunk : List Nat) :
    Nat × Nat × Nat × Nat × Nat :=
  let w := sha1W chunk
  let r := (List.range 80).foldl (sha1Step w) st
  (add32 st.1 r.1, add32 st.2.1 r.2.1, add32 st.2.2.1 r.2.2.1,
   add32 st.2.2.2.1 r.2.2.2.1, add32 st.2.2.2.2 r.2.2.2.2)

/-- The 20-byte SHA-1 digest of a byte sequence. -/
def sha1BytesOf (msg : List Nat) : List Nat :=
  let st := (chunks64 (padMsg false msg)).foldl sha1Chunk
    (0x67452301, 0xEFCDAB89, 0x98BADCFE, 0x10325476, 0xC3D2E1F0)
  lenBytesBE 4 st.1 ++ lenBytesBE 4 st.2.1 ++ lenBytesBE 4 st.2.2.1 ++
  lenBytesBE 4 st.2.2.2.1 ++ lenBytesBE 4 st.2.2.2.2

/-- The byte form of `uuid.NAMESPACE_DNS = 6ba7b810-9dad-11d1-80b4-00c04fd430c8`. -/
def dnsNamespaceBytes : List Nat :=
  [0x6b, 0xa7, 0xb8, 0x10, 0x9d, 0xad, 0x11, 0xd1, 0x80, 0xb4, 0x00, 0xc0, 0x4f, 0xd4, 0x30, 0xc8]

/-- `str(uuid.uuid5(namespace, name))`: SHA-1 of namespace bytes plus UTF-8
name bytes, truncated to 16 bytes, with the version forced to 5 and the
variant to RFC 4122, rendered in the dashed 8-4-4-4-12 hex form. -/
def uuid5String (ns : List Nat) (name : String) : String :=
  let h := (sha1BytesOf (ns ++ utf8Bytes name)).take 16
  let h := h.set 6 (((h.getD 6 0) &&& 0x0F) ||| 0x50)
  let h := h.set 8 (((h.getD 8 0) &&& 0x3F) ||| 0x80)
  let cs := bytesHexChars h
  String.mk (cs.take 8) ++ "-" ++ String.mk ((cs.drop 8).take 4) ++ "-" ++
  String.mk ((cs.drop 12).take 4) ++ "-" ++ String.mk ((cs.drop 16).take 4) ++ "-" ++
  String.mk (cs.drop 20)

/-! ### utils/ids.py -/

/-- `make_unique_id_uuid` from src/codedoc_ai/utils/ids.py: the extractor-side
identity function, a version-5 UUID over
`"<lang>:<name>:<file_path>:<start_line>:<start_col>"` in the DNS namespace,
rendered as `"<lang>_<uuid with dashes replaced by underscores>"`. -/
def make_unique_id_uuid (lang function_name file_path : String)
    (start_line start_col : Nat) : String :=
  let unique_string := lang ++ ":" ++ function_name ++ ":" ++ file_path ++ ":" ++
    Nat.repr start_line ++ ":" ++ Nat.repr start_col
  lang ++ "_" ++ pyReplace (uuid5String dnsNamespaceBytes unique_string) "-" "_"

/-! ### models/schemas.py -/

/-- `FunctionSchema` from src/codedoc_ai/models/schemas.py, with the fields
typed exactly as declared there: `source_code` is a required `str` (pydantic
rejects `None` for it), while `docstring` and `return_type` are Optional. -/
structure FunctionSchema where
  id : String
  name : String
  source_code : String
  file_path : String
  args : List String
  docstring : Option String
  return_type : Option String
  start_line : Nat
  end_line : Nat
deriving DecidableEq, Repr

/-- Pydantic validation of a `FunctionSchema(...)` construction, for the
argument combinations the extractors pass: every argument already has its
declared type except `source_code`, which the Rust extractor passes as
`None` although the field is a required `str` — the one validation that can
fail.  `none` there raises a ValidationError, modelled as `.error`. -/
def FunctionSchema_validate (id name : String) (source_code : Option String)
    (file_path : String) (args : List String) (docstring return_type : Option String)
    (start_line end_line : Nat) : Except String FunctionSchema :=
  match source_code with
  | none => .error "validation error for FunctionSchema: source_code none is not an allowed value"
  | some sc => .ok ⟨id, name, sc, file_path, args, docstring, return_type, start_line, end_line⟩

/-! ### indexer/__init__.py: the indexer-side id -/

/-- The `relative_path` computed inside `make_unique_id`: the last two
`Path.parts` joined by `/` when the path has more than two parts, else just
the file name. -/
def relPathOf (file_path : String) : String :=
  let parts := pyPathParts file_path
  if parts.length > 2 then String.intercalate "/" (parts.drop (parts.length - 2))
  else pyPathName file_path

/-- `make_unique_id` from src/codedoc_ai/indexer/__init__.py: an MD5-based id
`"<lang>_<cleaned name>_<first 8 hex digits>"` over
`"<lang>:<name>:<relative_path>:<start_line>:<start_col>"`. -/
def make_unique_id (lang function_name file_path : String)
    (start_line : Nat) (start_col : Nat := 0) : String :=
  let relative_path := relPathOf file_path
  let unique_string := lang ++ ":" ++ function_name ++ ":" ++ relative_path ++ ":" ++
    Nat.repr start_line ++ ":" ++ Nat.repr start_col
  let hash_hex := pyTake (md5hex unique_string) 8
  let clean_function_name := pyTake (pyReplace (pyReplace function_name "__" "_") " " "_") 20
  lang ++ "_" ++ clean_function_name ++ "_" ++ hash_hex

/-! ### The vector store at its interface boundary (ChromaDB collections) -/

/-- The metadata dict the indexer stores for one function. -/
structure EntryMetadata where
  name : String
  docstring : String
  args : String
  return_type : String
  start_line : Nat
  end_line : Nat
  file_path : String
deriving DecidableEq, Repr

/-- One persisted item of a collection: id, document text, metadata and
embedding vector. -/
structure IndexEntry where
  id : String
  document : String
  metadata : EntryMetadata
  embedding : List Rat
deriving DecidableEq, Repr

/-- The persistent vector store: named collections of entries. -/
abbrev VectorStore : Type := List (String × List IndexEntry)

/-- `client.get_collection(name)` as a lookup (`none` models the raised
"collection does not exist" exception). -/
def getCollection? (s : VectorStore) (name : String) : Option (List IndexEntry) :=
  match s with
  | [] => none
  | (m, es) :: rest => if m = name then some es else getCollection? rest name

/-- `clear_chroma_collection` from the indexer: fetch the collection's ids
and delete them all; a missing collection is left alone (the inner exception
is swallowed). -/
def clear_chroma_collection : VectorStore → String → VectorStore
  | [], _ => []
  | (m, es) :: rest, name =>
    (m, if m = name then ([] : List IndexEntry) else es) ::
      clear_chroma_collection rest name

/-- `client.get_or_create_collection(name)`'s effect on the store. -/
def get_or_create_collection (s : VectorStore) (name : String) : VectorStore :=
  if (getCollection? s name).isSome then s else s ++ [(name, [])]

/-- `collection.add(...)`'s effect on the store: append the entries to the
named collection. -/
def coll_add : VectorStore → String → List IndexEntry → VectorStore
  | [], _, _ => []
  | (m, l) :: rest, name, es =>
    (m, if m = name then l ++ es else l) :: coll_add rest name es

/-! ### embedder/__init__.py -/

/-- How a Python f-string renders an `Optional[str]`: `None` for the absent
case, the string itself otherwise. -/
def pyReprOptStr : Option String → String
  | none => "None"
  | some s => s

/-- The payload string `embed_function` builds from a record:
`"<name>(<args joined by comma-space>) -> <return type>\n<docstring or empty>"`. -/
def embed_function_payload (f : FunctionSchema) : String :=
  f.name ++ "(" ++ String.intercalate ", " f.args ++ ") -> " ++
  pyReprOptStr f.return_type ++ "\n" ++ (f.docstring.getD "")

/-- `embed_function` from src/codedoc_ai/embedder/__init__.py: apply the
shared text embedder (`embed_text`, the opaque sentence-transformers model,
passed here as a parameter) to the payload string. -/
def embed_function (embed_text : String → List Rat) (f : FunctionSchema) : List Rat :=
  embed_text (embed_function_payload f)

/-! ### indexer/__init__.py: build_index -/

/-- The document text the indexer persists for one record:
`doc_text = f"{f.name} {f.docstring or ''}"`. -/
def doc_text (f : FunctionSchema) : String :=
  f.name ++ " " ++ (f.docstring.getD "")

/-- The entry the indexer submits for one record: document text, metadata
dict, and the embedding of `embed_function`'s payload, with a 384-long zero
vector substituted when the embedder fails (`embedFn` returning `none`
models `embed_function` raising). -/
def mkIndexEntry (embedFn : String → Option (List Rat)) (f : FunctionSchema) : IndexEntry :=
  { id := f.id
    document := doc_text f
    metadata :=
      { name := f.name
        docstring := f.docstring.getD ""
        args := String.intercalate ", " f.args
        return_type := f.return_type.getD ""
        start_line := f.start_line
        end_line := f.end_line
        file_path := f.file_path }
    embedding := (embedFn (embed_function_payload f)).getD (List.replicate 384 0) }

instance {ε α : Type} [DecidableEq ε] [DecidableEq α] : DecidableEq (Except ε α) :=
  fun a b =>
    match a, b with
    | .error e, .error f =>
      if h : e = f then .isTrue (h ▸ rfl) else .isFalse (fun hh => h (by injection hh))
    | .ok x, .ok y =>
      if h : x = y then .isTrue (h ▸ rfl) else .isFalse (fun hh => h (by injection hh))
    | .error _, .ok _ => .isFalse (fun hh => Except.noConfusion hh)
    | .ok _, .error _ => .isFalse (fun hh => Except.noConfusion hh)

/-- One source file as the build sees it: its path components below the
repository root (last component the file name), the file-name extension
without the dot (what the glob `**/*.<lang>` matches on), and the outcome of
`detect_and_parse` on it (the opaque parser boundary: either a record list or
a raised exception's message). -/
structure SrcFile where
  pathUnderRoot : List String
  ext : String
  parsed : Except String (List FunctionSchema)
deriving DecidableEq, Repr

/-- The directory denylist of `build_index`. -/
def exclude_patterns : List String :=
  [".venv", "venv", "__pycache__", ".git", "node_modules", "dist", "build"]

/-- File enumeration of `build_index`: the glob `**/*.<lang>` keeps exactly
the files whose extension is `lang`, and the denylist filter then drops any
file with an excluded path component. -/
def candidate_files (files : List SrcFile) (lang : String) : List SrcFile :=
  (files.filter (fun f => f.ext == lang)).filter
    (fun f => !(f.pathUnderRoot.any (fun part => exclude_patterns.contains part)))

/-- The per-function id loop of `build_index`: compute the indexer id with
start column 0, append `"_" ++ str(int(time.time()*1000000))` when it was
already seen (the clock is indexed by how many collisions happened before the
call), record the id in the seen set, and overwrite the record's id.
Returns the processed records, the seen set and the duplicate count. -/
def dedupRun (lang : String) (clock : Nat → Nat) :
    List FunctionSchema → List String → Nat → (List FunctionSchema × List String × Nat)
  | [], seen, dup => ([], seen, dup)
  | f :: rest, seen, dup =>
    let uid := make_unique_id lang f.name f.file_path f.start_line 0
    if uid ∈ seen then
      let uid2 := uid ++ "_" ++ Nat.repr (clock dup)
      let r := dedupRun lang clock rest (uid2 :: seen) (dup + 1)
      ({ f with id := uid2 } :: r.1, r.2)
    else
      let r := dedupRun lang clock rest (uid :: seen) dup
      ({ f with id := uid } :: r.1, r.2)

/-- The records produced by the parse loop of `build_index`: a file whose
`detect_and_parse` raised contributes nothing (the per-file `except` prints
and continues); the others contribute their records in order. -/
def parsed_functions (files : List SrcFile) : List FunctionSchema :=
  (files.map (fun f => match f.parsed with | .ok l => l | .error _ => [])).flatten

/-- The structured content of `build_index`'s prints (only the events the
code prints, carrying exactly the numbers it prints). -/
inductive LogEntry
  | clearedItems (n : Nat)
  | foundFiles (n : Nat)
  | parsedFile (functionsFound : Nat)
  | fileError
  | noFunctionsFound
  | duplicateWarning (n : Nat)
  | totalFunctions (n : Nat)
  | indexedCount (added total : Nat)
deriving DecidableEq, Repr

/-- What one call of `build_index` leaves behind: the store, the printed
events, and the Python return value — `.error` for a raised `RuntimeError`,
`.ok ()` for a plain `return` (the function has no `return <value>`
statement on any successful path). -/
structure BuildOutcome where
  store : VectorStore
  log : List LogEntry
  result : Except String Unit
deriving DecidableEq, Repr

/-- ChromaDB batch size used by `build_index`. -/
def batch_size : Nat := 500

/-- The batched `collection.add` loop (every batch succeeds in this model;
the per-item retry path of the code is unreachable then, and the net effect
is appending all entries in order). -/
def add_in_batches (s : VectorStore) (name : String) (es : List IndexEntry) : VectorStore :=
  (chunksAux batch_size es.length es).foldl (fun acc b => coll_add acc name b) s

/-- `build_index` from src/codedoc_ai/indexer/__init__.py.  Order of effects
as in the source: clear the language's collection, get-or-create it, glob
and filter the candidate files, raise if none, parse each file (skipping files
whose parse raised), overwrite ids with `make_unique_id`/timestamp-suffix
deduplication, return early if no functions, else embed every record (zero
vector on embedder failure) and add everything in batches of 500. -/
def build_index (embedFn : String → Option (List Rat)) (clock : Nat → Nat)
    (repo_root : String) (files : List SrcFile) (lang : String)
    (store : VectorStore) : BuildOutcome :=
  let coll_name := "functions_" ++ lang
  let logClear :=
    match getCollection? store coll_name with
    | some es => if es.isEmpty then [] else [LogEntry.clearedItems es.length]
    | none => []
  let s1 := clear_chroma_collection store coll_name
  let s2 := get_or_create_collection s1 coll_name
  let cands := candidate_files files lang
  if cands.isEmpty then
    { store := s2, log := logClear,
      result := .error ("No ." ++ lang ++ " files found in " ++ repo_root) }
  else
    let logParse := cands.map (fun f =>
      match f.parsed with
      | .ok l => LogEntry.parsedFile l.length
      | .error _ => LogEntry.fileError)
    let funcs := parsed_functions cands
    let r := dedupRun lang clock funcs [] 0
    let fns := r.1
    let dup := r.2.2
    if fns.isEmpty then
      { store := s2,
        log := logClear ++ [LogEntry.foundFiles cands.length] ++ logParse ++
          [LogEntry.noFunctionsFound],
        result := .ok () }
    else
      let logDup := if dup > 0 then [LogEntry.duplicateWarning dup] else []
      let entries := fns.map (mkIndexEntry embedFn)
      let s3 := add_in_batches s2 coll_name entries
      { store := s3,
        log := logClear ++ [LogEntry.foundFiles cands.length] ++ logParse ++ logDup ++
          [LogEntry.totalFunctions fns.length, LogEntry.indexedCount entries.length fns.length],
        result := .ok () }

/-! ### search/__init__.py -/

/-- `LANG_ALIASES`: identical dicts appear in src/codedoc_ai/search/__init__.py
and src/codedoc_ai/main.py; modelled once. -/
def LANG_ALIASES : List (String × String) :=
  [("py", "py"), ("python", "py"), ("js", "js"), ("javascript", "js"), ("ts", "js"),
   ("java", "java"), ("rs", "rust"), ("rust", "rust"), ("go", "go"),
   ("cpp", "cpp"), ("c++", "cpp")]

/-- Dict lookup in `LANG_ALIASES`. -/
def aliasLookup (key : String) : Option String :=
  (LANG_ALIASES.find? (fun p => p.1 == key)).map (fun p => p.2)

/-- One hit returned by `query`: id, document, metadata, and the distance
(ChromaDB reports distances by default, so the `if "distances" in results`
guard of the code takes the `some` branch). -/
structure Hit where
  id : String
  document : String
  metadata : EntryMetadata
  distance : Option Rat
deriving DecidableEq, Repr

/-- The two `typer.Exit(1)` conditions `query` can raise. -/
inductive QueryError
  | unsupportedLanguage (lang : String)
  | collectionMissing (coll : String)
deriving DecidableEq, Repr

/-- `query` from src/codedoc_ai/search/__init__.py.  `embed_text` is the
shared opaque embedder; `dist` is the store's distance metric; the store's
nearest-neighbor search is modelled per its interface contract: entries
sorted by increasing distance to the query embedding, truncated to
`top_k`. -/
def query (embed_text : String → List Rat) (dist : List Rat → List Rat → Rat)
    (store : VectorStore) (q : String) (lang : String) (top_k : Nat) :
    Except QueryError (List Hit) :=
  let key := pyLower lang
  match aliasLookup key with
  | none => .error (.unsupportedLanguage lang)
  | some normalized =>
    let coll_name := "functions_" ++ normalized
    match getCollection? store coll_name with
    | none => .error (.collectionMissing coll_name)
    | some entries =>
      let emb := embed_text q
      let sorted := entries.insertionSort
        (fun e₁ e₂ => dist emb e₁.embedding ≤ dist emb e₂.embedding)
      .ok ((sorted.take top_k).map
        (fun e => Hit.mk e.id e.document e.metadata (some (dist emb e.embedding))))

/-! ### main.py: the index command's language handling -/

/-- The language handling of `main.index`: reject a language outside the
alias table, else normalize it and run `build_index` (root resolution and
auto-detection are outside this claim's scope and elided). -/
def index_command (embedFn : String → Option (List Rat)) (clock : Nat → Nat)
    (repo_root : String) (files : List SrcFile) (lang : String)
    (store : VectorStore) : Except String BuildOutcome :=
  match aliasLookup (pyLower lang) with
  | none => .error ("Unsupported language " ++ lang)
  | some normalized => .ok (build_index embedFn clock repo_root files normalized store)

/-! ### python_parser.py: record assembly (the facts a `FunctionDef` node
yields; the ast library is the opaque boundary) -/

/-- The data `parse_file` reads off one `ast.FunctionDef` node. -/
structure PyNodeData where
  name : String
  args : List String
  return_type : Option String
  docstring : Option String
  source_text : String
  start_line : Nat
  end_line : Nat
  col_offset : Nat
deriving DecidableEq, Repr

/-- The record `python_parser.parse_file` builds from one function node:
the extractor-side id is `make_unique_id_uuid` over
`("py", name, file path, lineno, col_offset + 1)`. -/
def py_make_record (file_path : String) (nd : PyNodeData) : FunctionSchema :=
  { id := make_unique_id_uuid "py" nd.name file_path nd.start_line (nd.col_offset + 1)
    name := nd.name
    source_code := nd.source_text
    file_path := file_path
    args := nd.args
    docstring := nd.docstring
    return_type := nd.return_type
    start_line := nd.start_line
    end_line := nd.end_line }

/-- The record sequence one run of the Python extractor produces from the
function nodes of a file's tree. -/
def py_extract_records (file_path : String) (nodes : List PyNodeData) : List FunctionSchema :=
  nodes.map (py_make_record file_path)

/-! ### Extraction error-recovery control flow (python_parser.parse_file,
js_parser.walk, rust_parser.walk / cpp_parser.walk).

Per-node processing can raise inside the opaque tree/record machinery; the
drivers differ in where they catch.  A `List (Except String FunctionSchema)`
is the sequence of per-node outcomes a file's function nodes produce. -/

/-- The node loop of `python_parser.parse_file`: the whole loop sits inside
one `try`, whose `except` returns `[]` — the first failing node discards all
records of the file. -/
def py_nodes_loop : List (Except String FunctionSchema) → List FunctionSchema →
    List FunctionSchema
  | [], acc => acc.reverse
  | .error _ :: _, _ => []
  | .ok f :: rest, acc => py_nodes_loop rest (f :: acc)

/-- `python_parser.parse_file`: a read/parse failure (outer `.error`) also
lands in the same except-and-return-empty. -/
def py_parse_drive : Except String (List (Except String FunctionSchema)) →
    List FunctionSchema
  | .error _ => []
  | .ok outs => py_nodes_loop outs []

/-- The walk of `js_parser.parse_file`: no try/except anywhere — the first
failing node propagates the exception out of extraction. -/
def js_walk_drive : List (Except String FunctionSchema) →
    Except String (List FunctionSchema)
  | [] => .ok []
  | .error e :: _ => .error e
  | .ok f :: rest =>
    match js_walk_drive rest with
    | .ok l => .ok (f :: l)
    | .error e => .error e

/-- The walk of `rust_parser.parse_file`, `cpp_parser.parse_file` and
`go_parser.parse_file`: each node's processing sits in its own try/except,
so a failing node is skipped and the remaining outcomes are kept. -/
def tree_walk_drive (outs : List (Except String FunctionSchema)) : List FunctionSchema :=
  outs.filterMap (fun o => match o with | .ok f => some f | .error _ => none)

/-- The node-level data `rust_parser._parse_function_node` reads off one
`function_item` node (the tree-sitter field lookups are the opaque
boundary). -/
structure RustNodeData where
  name : String
  args : List String
  docstring : Option String
  start_line : Nat
  start_col : Nat
  end_line : Nat
deriving DecidableEq, Repr

/-- `rust_parser._parse_function_node`: builds the extractor id with
`make_unique_id_uuid` (via `_make_unique_rust_id`) and then constructs
`FunctionSchema(..., source_code=None, ..., return_type=None, ...)` — a call
whose pydantic validation fails for every node, because `source_code` is a
required `str`. -/
def rust_parse_function_node (file_path lang : String) (nd : RustNodeData) :
    Except String FunctionSchema :=
  FunctionSchema_validate
    (make_unique_id_uuid lang nd.name file_path nd.start_line nd.start_col)
    nd.name none file_path nd.args nd.docstring none nd.start_line nd.end_line

/-! ### rust_parser._extract_doc and cpp_parser._extract_doc -/

/-- A tree-sitter sibling node as the doc scan sees it: kind tag, text,
namedness. -/
structure TSNode where
  type : String
  text : String
  isNamed : Bool
deriving DecidableEq, Repr

/-- Cleaning of one Rust doc comment's text:
`txt.lstrip("/!* ").rstrip("*/ ").strip()`. -/
def rust_doc_clean (txt : String) : String :=
  pyStrip (pyRStripSet ['*', '/', ' '] (pyLStripSet ['/', '!', '*', ' '] txt))

/-- Is this sibling a comment node of the Rust grammar? -/
def rust_is_comment (s : TSNode) : Bool :=
  s.type == "line_comment" || s.type == "block_comment"

/-- Does this comment's stripped text carry a Rust doc marker? -/
def rust_doc_marked (txt : String) : Bool :=
  pyStartsWith txt "///" || pyStartsWith txt "//!" || pyStartsWith txt "/**"

/-- The sibling loop of `rust_parser._extract_doc`, over the preceding
siblings nearest-first: a comment with a doc marker contributes its cleaned
text; a comment without one is passed over; a node whose kind strips to the
empty string is skipped; any other node stops the loop. -/
def rust_doc_loop : List TSNode → List String → List String
  | [], docs => docs
  | s :: rest, docs =>
    if rust_is_comment s then
      let txt := pyStrip s.text
      if rust_doc_marked txt then rust_doc_loop rest (docs ++ [rust_doc_clean txt])
      else rust_doc_loop rest docs
    else if pyStrip s.type = "" then rust_doc_loop rest docs
    else docs

/-- `rust_parser._extract_doc`, taking the function node's preceding siblings
in source order: scan them nearest-first, then join the accumulated lines in
top-to-bottom order with newlines (`None` when nothing accumulated). -/
def rust_extract_doc (before : List TSNode) : Option String :=
  let docs := rust_doc_loop before.reverse []
  if docs.isEmpty then none else some (String.intercalate "\n" docs.reverse)

/-- Cleaning of one C++ doc comment:
`"\n".join(line.strip("* ").rstrip() for line in txt.strip("/").splitlines())`. -/
def cpp_doc_clean (txt : String) : String :=
  String.intercalate "\n"
    ((pySplitLines (pyStripSet ['/'] txt)).map
      (fun line => pyRStrip (pyStripSet ['*', ' '] line)))

/-- Does this C++ comment's stripped text carry a Doxygen/Javadoc marker? -/
def cpp_doc_marked (txt : String) : Bool :=
  pyStartsWith txt "/**" || pyStartsWith txt "///"

/-- The sibling loop of `cpp_parser._extract_doc`: a `comment` node with a
doc marker contributes its cleaned text, a `comment` without one is passed
over, any other *named* node stops the loop, and unnamed nodes are
skipped. -/
def cpp_doc_loop : List TSNode → List String → List String
  | [], docs => docs
  | s :: rest, docs =>
    if s.type == "comment" then
      let txt := pyStrip s.text
      if cpp_doc_marked txt then cpp_doc_loop rest (docs ++ [cpp_doc_clean txt])
      else cpp_doc_loop rest docs
    else if s.isNamed then docs
    else cpp_doc_loop rest docs

/-- `cpp_parser._extract_doc` over the preceding siblings in source order. -/
def cpp_extract_doc (before : List TSNode) : Option String :=
  let docs := cpp_doc_loop before.reverse []
  if docs.isEmpty then none else some (String.intercalate "\n" docs.reverse)

/-- Modelled from the spec (the claim's scan rule, for comparison with the
code's scan): accumulate, nearest first, only a contiguous run of doc-style
comments, stopping at the first sibling that is anything else — in
particular at the first unrelated (non-doc-style) comment. -/
def rust_doc_scan_claim (before : List TSNode) : Option String :=
  let docs := (before.reverse.takeWhile
      (fun s => rust_is_comment s && rust_doc_marked (pyStrip s.text))).map
    (fun s => rust_doc_clean (pyStrip s.text))
  if docs.isEmpty then none else some (String.intercalate "\n" docs.reverse)

/-- Closed form of the Rust scan, for the characterization theorem: the
loop looks exactly at the longest prefix (nearest first) of comment-or-blank
-kind siblings, and keeps the cleaned texts of the doc-marked comments in
it. -/
def rust_doc_collect (l : List TSNode) : List String :=
  (l.takeWhile (fun s => rust_is_comment s || pyStrip s.type == "")).filterMap
    (fun s => if rust_is_comment s && rust_doc_marked (pyStrip s.text)
      then some (rust_doc_clean (pyStrip s.text)) else none)

/-- Closed form of the C++ scan. -/
def cpp_doc_collect (l : List TSNode) : List String :=
  (l.takeWhile (fun s => s.type == "comment" || !s.isNamed)).filterMap
    (fun s => if s.type == "comment" && cpp_doc_marked (pyStrip s.text)
      then some (cpp_doc_clean (pyStrip s.text)) else none)

/-! ### Auxiliary notions for the uniqueness argument -/

/-- The run of non-underscore characters at the right end of a string (read
right-to-left).  For an id `<lang>_<clean>_<hash8>` this is the reversed
8-character hash; for a timestamp-suffixed id `<base>_<digits>` it is the
reversed digit string. -/
def idLastSeg (s : String) : List Char :=
  s.data.reverse.takeWhile (fun c => c != '_')

/-- The base id `build_index` computes for a record before deduplication
(start column always 0). -/
def record_base_id (lang : String) (r : FunctionSchema) : String :=
  make_unique_id lang r.name r.file_path r.start_line 0

/-- Shape invariant of the ids in the seen set after `dup` collisions: each
is either a plain `make_unique_id` result (last segment of length 8) or a
timestamp-suffixed id whose suffix used a clock index below `dup`. -/
def SeenShape (clock : Nat → Nat) (dup : Nat) (s : String) : Prop :=
  (idLastSeg s).length = 8 ∨ ∃ j, j < dup ∧ idLastSeg s = (Nat.repr (clock j)).data.reverse

/-! ### Helper lemmas: lists, characters, hex digests -/

theorem list_takeWhile_all_append {α : Type} (p : α → Bool) (l₁ : List α) (c : α)
    (l₂ : List α) (h₁ : ∀ a ∈ l₁, p a = true) (hc : p c = false) :
    (l₁ ++ c :: l₂).takeWhile p = l₁ := by
  induction l₁ with
  | nil => simp [List.takeWhile_cons, hc]
  | cons a as ih =>
    have ha := h₁ a (List.mem_cons_self a as)
    simp [List.takeWhile_cons, ha, ih (fun x hx => h₁ x (List.mem_cons_of_mem a hx))]

theorem list_getD_mem_or {α : Type} (l : List α) (n : Nat) (d : α) :
    l.getD n d ∈ l ∨ l.getD n d = d := by
  induction l generalizing n with
  | nil => simp [List.getD]
  | cons a as ih =>
    cases n with
    | zero => simp [List.getD]
    | succ m =>
      have : (a :: as).getD (m + 1) d = as.getD m d := by simp [List.getD]
      rw [this]
      rcases ih m with h | h
      · exact Or.inl (List.mem_cons_of_mem a h)
      · exact Or.inr h

theorem hexChar_ne_underscore (n : Nat) : hexChar n ≠ '_' := by
  unfold hexChar
  rcases list_getD_mem_or ("0123456789abcdef*".data) n '*' with h | h
  · intro he
    rw [he] at h
    revert h
    decide
  · rw [h]
    decide

theorem byteHex_ne_underscore {c : Char} {b : Nat} (h : c ∈ byteHex b) : c ≠ '_' := by
  unfold byteHex at h
  simp at h
  rcases h with h | h <;> (subst h; exact hexChar_ne_underscore _)

theorem bytesHexChars_no_underscore {c : Char} {bs : List Nat}
    (h : c ∈ bytesHexChars bs) : c ≠ '_' := by
  unfold bytesHexChars at h
  rw [List.mem_flatten] at h
  obtain ⟨l, hl, hc⟩ := h
  rw [List.mem_map] at hl
  obtain ⟨b, _, rfl⟩ := hl
  exact byteHex_ne_underscore hc

theorem bytesHexChars_length (bs : List Nat) : (bytesHexChars bs).length = 2 * bs.length := by
  induction bs with
  | nil => rfl
  | cons b rest ih =>
    have h : bytesHexChars (b :: rest) = byteHex b ++ bytesHexChars rest := rfl
    rw [h, List.length_append, ih]
    simp [byteHex]
    omega

theorem lenBytesLE_length (k : Nat) : ∀ n, (lenBytesLE k n).length = k := by
  induction k with
  | zero => intro n; rfl
  | succ m ih => intro n; simp [lenBytesLE, ih]

theorem md5Bytes_length (m : List Nat) : (md5Bytes m).length = 16 := by
  unfold md5Bytes
  simp [List.length_append, lenBytesLE_length]

theorem md5hex_data (s : String) :
    (md5hex s).data = bytesHexChars (md5Bytes (utf8Bytes s)) := rfl

theorem md5hex_data_length (s : String) : (md5hex s).data.length = 32 := by
  rw [md5hex_data, bytesHexChars_length, md5Bytes_length]

theorem string_data_inj {s t : String} (h : s.data = t.data) : s = t := by
  cases s
  cases t
  exact congrArg String.mk (by simpa using h)

theorem idLastSeg_append (x y : String) (hy : ∀ c ∈ y.data, c ≠ '_') :
    idLastSeg (x ++ "_" ++ y) = y.data.reverse := by
  unfold idLastSeg
  have hdata : (x ++ "_" ++ y).data = x.data ++ '_' :: y.data := by
    simp [String.data_append]
  rw [hdata]
  have hrev : (x.data ++ '_' :: y.data).reverse = y.data.reverse ++ '_' :: x.data.reverse := by
    simp
  rw [hrev]
  apply list_takeWhile_all_append
  · intro a ha
    rw [List.mem_reverse] at ha
    simpa using hy a ha
  · rfl

theorem pyTake_data (s : String) (n : Nat) : (pyTake s n).data = s.data.take n := rfl

theorem make_unique_id_eq (lang n p : String) (sl sc : Nat) :
    make_unique_id lang n p sl sc
      = (lang ++ "_" ++ pyTake (pyReplace (pyReplace n "__" "_") " " "_") 20) ++ "_" ++
        pyTake (md5hex (lang ++ ":" ++ n ++ ":" ++ relPathOf p ++ ":" ++
          Nat.repr sl ++ ":" ++ Nat.repr sc)) 8 := rfl

theorem hash8_no_underscore {c : Char} {s : String} (h : c ∈ (pyTake (md5hex s) 8).data) :
    c ≠ '_' := by
  rw [pyTake_data] at h
  exact bytesHexChars_no_underscore (by rw [← md5hex_data]; exact List.mem_of_mem_take h)

theorem idLastSeg_make_unique_id (lang n p : String) (sl sc : Nat) :
    (idLastSeg (make_unique_id lang n p sl sc)).length = 8 := by
  rw [make_unique_id_eq,
    idLastSeg_append _ _ (fun c hc => hash8_no_underscore hc)]
  rw [List.length_reverse, pyTake_data, List.length_take, md5hex_data_length]
  decide

theorem record_base_id_lastSeg (lang : String) (r : FunctionSchema) :
    (idLastSeg (record_base_id lang r)).length = 8 :=
  idLastSeg_make_unique_id lang r.name r.file_path r.start_line 0

/-! ### Helper lemmas: the vector-store operations -/

theorem getCollection?_clear_self (s : VectorStore) (n : String) :
    getCollection? (clear_chroma_collection s n) n
      = (getCollection? s n).map (fun _ => ([] : List IndexEntry)) := by
  induction s with
  | nil => rfl
  | cons p rest ih =>
    obtain ⟨m, les⟩ := p
    by_cases h : m = n
    · subst h
      simp [clear_chroma_collection, getCollection?]
    · simp [clear_chroma_collection, getCollection?, h, ih]

theorem getCollection?_append (s t : VectorStore) (n : String) :
    getCollection? (s ++ t) n
      = match getCollection? s n with
        | some es => some es
        | none => getCollection? t n := by
  induction s with
  | nil => simp [getCollection?]
  | cons p rest ih =>
    by_cases h : p.1 = n
    · simp [getCollection?, h]
    · simp [getCollection?, h]
      exact ih

theorem getCollection?_goc_self (s : VectorStore) (n : String) :
    getCollection? (get_or_create_collection s n) n
      = some ((getCollection? s n).getD []) := by
  unfold get_or_create_collection
  cases hs : getCollection? s n with
  | some es => simp [hs]
  | none =>
    simp [hs, getCollection?_append]
    simp [getCollection?]

theorem cleared_then_created (s : VectorStore) (n : String) :
    getCollection? (get_or_create_collection (clear_chroma_collection s n) n) n
      = some [] := by
  rw [getCollection?_goc_self, getCollection?_clear_self]
  cases getCollection? s n <;> rfl

theorem getCollection?_coll_add_self (s : VectorStore) (n : String) (es : List IndexEntry) :
    getCollection? (coll_add s n es) n = (getCollection? s n).map (fun l => l ++ es) := by
  induction s with
  | nil => rfl
  | cons p rest ih =>
    obtain ⟨m, les⟩ := p
    by_cases h : m = n
    · subst h
      simp [coll_add, getCollection?]
    · simp [coll_add, getCollection?, h, ih]

theorem chunksAux_flatten {α : Type} (k : Nat) (hk : 0 < k) :
    ∀ fuel (l : List α), l.length ≤ fuel → (chunksAux k fuel l).flatten = l := by
  intro fuel
  induction fuel with
  | zero =>
    intro l hl
    have : l = [] := List.length_eq_zero.mp (Nat.le_zero.mp hl)
    subst this
    rfl
  | succ m ih =>
    intro l hl
    cases l with
    | nil => rfl
    | cons a rest =>
      have hstep : (chunksAux k (m + 1) (a :: rest)) =
          (a :: rest).take k :: chunksAux k m ((a :: rest).drop k) := rfl
      rw [hstep]
      have hdrop : ((a :: rest).drop k).length ≤ m := by
        rw [List.length_drop]
        simp only [List.length_cons] at hl ⊢
        omega
      simp [ih _ hdrop]

theorem foldl_coll_add (n : String) (bs : List (List IndexEntry)) :
    ∀ s : VectorStore,
      getCollection? (bs.foldl (fun acc b => coll_add acc n b) s) n
        = (getCollection? s n).map (fun l => l ++ bs.flatten) := by
  induction bs with
  | nil =>
    intro s
    cases h : getCollection? s n <;> simp [h]
  | cons b rest ih =>
    intro s
    simp only [List.foldl_cons]
    rw [ih, getCollection?_coll_add_self]
    cases h : getCollection? s n <;> simp [h]

theorem add_in_batches_self (s : VectorStore) (n : String) (es : List IndexEntry) :
    getCollection? (add_in_batches s n es) n
      = (getCollection? s n).map (fun l => l ++ es) := by
  unfold add_in_batches
  rw [foldl_coll_add]
  rw [chunksAux_flatten batch_size (by decide) es.length es (Nat.le_refl _)]

/-! ### Helper lemmas: dedupRun -/

theorem dedupRun_length (lang : String) (clock : Nat → Nat) :
    ∀ (funcs : List FunctionSchema) (seen : List String) (dup : Nat),
      (dedupRun lang clock funcs seen dup).1.length = funcs.length := by
  intro funcs
  induction funcs with
  | nil => intro seen dup; rfl
  | cons f rest ih =>
    intro seen dup
    by_cases h : make_unique_id lang f.name f.file_path f.start_line 0 ∈ seen
    · simp [dedupRun, h, ih]
    · simp [dedupRun, h, ih]

theorem SeenShape_mono {clock : Nat → Nat} {d d' : Nat} {s : String} (h : d ≤ d') :
    SeenShape clock d s → SeenShape clock d' s := by
  rintro (h8 | ⟨j, hj, hseg⟩)
  · exact Or.inl h8
  · exact Or.inr ⟨j, Nat.lt_of_lt_of_le hj h, hseg⟩

theorem string_length_data (s : String) : s.length = s.data.length := rfl

theorem append_underscore_ne (x y : String) (hy : 1 ≤ y.data.length) :
    x ++ "_" ++ y ≠ x := by
  intro he
  have hl := congrArg String.length he
  rw [String.length_append, String.length_append] at hl
  have h1 : ("_" : String).length = 1 := rfl
  rw [h1, string_length_data y] at hl
  omega

theorem idLastSeg_suffixed (base : String) (clock : Nat → Nat) (j : Nat)
    (hund : '_' ∉ (Nat.repr (clock j)).data) :
    idLastSeg (base ++ "_" ++ Nat.repr (clock j)) = (Nat.repr (clock j)).data.reverse :=
  idLastSeg_append base _ (fun _ hc he => hund (he ▸ hc))

theorem suffixed_not_in_seen (clock : Nat → Nat) (N dup : Nat) (hk : dup < N)
    (hinj : ∀ j, j < N → ∀ k, k < N → j ≠ k → Nat.repr (clock j) ≠ Nat.repr (clock k))
    (hlen : ∀ k, k < N → 9 ≤ (Nat.repr (clock k)).data.length)
    (hund : ∀ k, k < N → '_' ∉ (Nat.repr (clock k)).data)
    (seen : List String) (hseen : ∀ s ∈ seen, SeenShape clock dup s) (base : String) :
    base ++ "_" ++ Nat.repr (clock dup) ∉ seen := by
  intro hmem
  have hseg := idLastSeg_suffixed base clock dup (hund dup hk)
  rcases hseen _ hmem with h8 | ⟨j, hj, hj_seg⟩
  · rw [hseg, List.length_reverse] at h8
    have := hlen dup hk
    omega
  · rw [hseg] at hj_seg
    have hdata : (Nat.repr (clock dup)).data = (Nat.repr (clock j)).data :=
      List.reverse_injective hj_seg
    exact hinj dup hk j (Nat.lt_trans hj hk) (by omega) (string_data_inj hdata)

/-- The invariant of the deduplication loop of `build_index`: starting from a
seen set whose members satisfy the shape invariant, when the timestamp
strings used are pairwise distinct, at least 9 characters long and free of
underscores, the loop yields pairwise-distinct ids, the duplicate counter
counts exactly the suffixed records, and the seen set absorbs every recorded
id. -/
theorem dedup_inv (lang : String) (clock : Nat → Nat) (N : Nat)
    (hinj : ∀ j, j < N → ∀ k, k < N → j ≠ k → Nat.repr (clock j) ≠ Nat.repr (clock k))
    (hlen : ∀ k, k < N → 9 ≤ (Nat.repr (clock k)).data.length)
    (hund : ∀ k, k < N → '_' ∉ (Nat.repr (clock k)).data) :
    ∀ (funcs : List FunctionSchema) (seen : List String) (dup : Nat),
      dup + funcs.length ≤ N →
      (∀ s ∈ seen, SeenShape clock dup s) →
      (dedupRun lang clock funcs seen dup).2.2 ≤ dup + funcs.length
      ∧ ((dedupRun lang clock funcs seen dup).1.map (fun r => r.id)).Nodup
      ∧ (∀ s ∈ seen, s ∈ (dedupRun lang clock funcs seen dup).2.1)
      ∧ (∀ r ∈ (dedupRun lang clock funcs seen dup).1,
          r.id ∈ (dedupRun lang clock funcs seen dup).2.1)
      ∧ (∀ s ∈ (dedupRun lang clock funcs seen dup).2.1,
          SeenShape clock (dedupRun lang clock funcs seen dup).2.2 s)
      ∧ (∀ r ∈ (dedupRun lang clock funcs seen dup).1, r.id ∉ seen)
      ∧ (dedupRun lang clock funcs seen dup).2.2
          = dup + (dedupRun lang clock funcs seen dup).1.countP
              (fun r => r.id != record_base_id lang r) := by
  intro funcs
  induction funcs with
  | nil =>
    intro seen dup hbound hseen
    refine ⟨by simp [dedupRun], by simp [dedupRun], ?_, ?_, ?_, ?_, by simp [dedupRun]⟩
    · intro s hs
      simpa [dedupRun] using hs
    · intro r hr
      simp [dedupRun] at hr
    · intro s hs
      simp only [dedupRun] at hs ⊢
      exact hseen s hs
    · intro r hr
      simp [dedupRun] at hr
  | cons f rest ih =>
    intro seen dup hbound hseen
    have hk : dup < N := by
      simp only [List.length_cons] at hbound
      omega
    by_cases hmem : make_unique_id lang f.name f.file_path f.start_line 0 ∈ seen
    · -- collision: suffix with the timestamp, bump the counter
      have hstep : dedupRun lang clock (f :: rest) seen dup
          = (({ f with id := make_unique_id lang f.name f.file_path f.start_line 0 ++ "_" ++
                Nat.repr (clock dup) } : FunctionSchema) ::
              (dedupRun lang clock rest
                ((make_unique_id lang f.name f.file_path f.start_line 0 ++ "_" ++
                  Nat.repr (clock dup)) :: seen) (dup + 1)).1,
             (dedupRun lang clock rest
                ((make_unique_id lang f.name f.file_path f.start_line 0 ++ "_" ++
                  Nat.repr (clock dup)) :: seen) (dup + 1)).2) := by
        simp [dedupRun, hmem]
      set uid := make_unique_id lang f.name f.file_path f.start_line 0 with huid
      set uid2 := uid ++ "_" ++ Nat.repr (clock dup) with huid2
      have hnotin : uid2 ∉ seen :=
        suffixed_not_in_seen clock N dup hk hinj hlen hund seen hseen uid
      have hshape2 : SeenShape clock (dup + 1) uid2 :=
        Or.inr ⟨dup, Nat.lt_succ_self dup, idLastSeg_suffixed uid clock dup (hund dup hk)⟩
      have hseen' : ∀ s ∈ uid2 :: seen, SeenShape clock (dup + 1) s := by
        intro s hs
        rcases List.mem_cons.mp hs with rfl | hs
        · exact hshape2
        · exact SeenShape_mono (Nat.le_succ dup) (hseen s hs)
      have hbound' : (dup + 1) + rest.length ≤ N := by
        simp only [List.length_cons] at hbound
        omega
      obtain ⟨ih1, ih2, ih3, ih4, ih5, ih6, ih7⟩ := ih (uid2 :: seen) (dup + 1) hbound' hseen'
      rw [hstep]
      refine ⟨?_, ?_, ?_, ?_, ?_, ?_, ?_⟩
      · simp only [List.length_cons]
        omega
      · simp only [List.map_cons]
        refine List.Nodup.cons ?_ ih2
        intro hcontra
        rw [List.mem_map] at hcontra
        obtain ⟨r, hr, hrid⟩ := hcontra
        exact ih6 r hr (hrid ▸ List.mem_cons_self uid2 seen)
      · intro s hs
        exact ih3 s (List.mem_cons_of_mem uid2 hs)
      · intro r hr
        rcases List.mem_cons.mp hr with rfl | hr
        · exact ih3 uid2 (List.mem_cons_self uid2 seen)
        · exact ih4 r hr
      · exact ih5
      · intro r hr
        rcases List.mem_cons.mp hr with rfl | hr
        · exact hnotin
        · exact fun hc => ih6 r hr (List.mem_cons_of_mem uid2 hc)
      · have hpred : (({ f with id := uid2 } : FunctionSchema).id !=
            record_base_id lang ({ f with id := uid2 } : FunctionSchema)) = true := by
          have hbase : record_base_id lang ({ f with id := uid2 } : FunctionSchema) = uid := rfl
          have hidv : ({ f with id := uid2 } : FunctionSchema).id = uid2 := rfl
          rw [hidv, hbase, bne_iff_ne]
          exact append_underscore_ne uid (Nat.repr (clock dup)) (by
            have := hlen dup hk
            omega)
        show (dedupRun lang clock rest (uid2 :: seen) (dup + 1)).2.2
          = dup + List.countP (fun r => r.id != record_base_id lang r)
              (({ f with id := uid2 } : FunctionSchema) ::
                (dedupRun lang clock rest (uid2 :: seen) (dup + 1)).1)
        rw [List.countP_cons_of_pos (fun r => r.id != record_base_id lang r) _ hpred, ih7]
        omega
    · -- fresh id: record as is
      have hstep : dedupRun lang clock (f :: rest) seen dup
          = (({ f with id := make_unique_id lang f.name f.file_path f.start_line 0 } :
                FunctionSchema) ::
              (dedupRun lang clock rest
                (make_unique_id lang f.name f.file_path f.start_line 0 :: seen) dup).1,
             (dedupRun lang clock rest
                (make_unique_id lang f.name f.file_path f.start_line 0 :: seen) dup).2) := by
        simp [dedupRun, hmem]
      set uid := make_unique_id lang f.name f.file_path f.start_line 0 with huid
      have hshape : SeenShape clock dup uid :=
        Or.inl (idLastSeg_make_unique_id lang f.name f.file_path f.start_line 0)
      have hseen' : ∀ s ∈ uid :: seen, SeenShape clock dup s := by
        intro s hs
        rcases List.mem_cons.mp hs with rfl | hs
        · exact hshape
        · exact hseen s hs
      have hbound' : dup + rest.length ≤ N := by
        simp only [List.length_cons] at hbound
        omega
      obtain ⟨ih1, ih2, ih3, ih4, ih5, ih6, ih7⟩ := ih (uid :: seen) dup hbound' hseen'
      rw [hstep]
      refine ⟨?_, ?_, ?_, ?_, ?_, ?_, ?_⟩
      · simp only [List.length_cons]
        omega
      · simp only [List.map_cons]
        refine List.Nodup.cons ?_ ih2
        intro hcontra
        rw [List.mem_map] at hcontra
        obtain ⟨r, hr, hrid⟩ := hcontra
        exact ih6 r hr (hrid ▸ List.mem_cons_self uid seen)
      · intro s hs
        exact ih3 s (List.mem_cons_of_mem uid hs)
      · intro r hr
        rcases List.mem_cons.mp hr with rfl | hr
        · exact ih3 uid (List.mem_cons_self uid seen)
        · exact ih4 r hr
      · exact ih5
      · intro r hr
        rcases List.mem_cons.mp hr with rfl | hr
        · exact hmem
        · exact fun hc => ih6 r hr (List.mem_cons_of_mem uid hc)
      · have hpred : (({ f with id := uid } : FunctionSchema).id !=
            record_base_id lang ({ f with id := uid } : FunctionSchema)) = false := by
          have hbase : record_base_id lang ({ f with id := uid } : FunctionSchema) = uid := rfl
          have hidv : ({ f with id := uid } : FunctionSchema).id = uid := rfl
          rw [hidv, hbase]
          simp
        show (dedupRun lang clock rest (uid :: seen) dup).2.2
          = dup + List.countP (fun r => r.id != record_base_id lang r)
              (({ f with id := uid } : FunctionSchema) ::
                (dedupRun lang clock rest (uid :: seen) dup).1)
        rw [List.countP_cons_of_neg (fun r => r.id != record_base_id lang r) _
          (by simp [hpred]), ih7]

/-! ### Helper lemmas: the doc-comment scans -/

theorem rust_doc_loop_eq (l : List TSNode) :
    ∀ docs, rust_doc_loop l docs = docs ++ rust_doc_collect l := by
  induction l with
  | nil => intro docs; simp [rust_doc_loop, rust_doc_collect]
  | cons s rest ih =>
    intro docs
    by_cases hc : rust_is_comment s
    · by_cases hm : rust_doc_marked (pyStrip s.text)
      · simp [rust_doc_loop, hc, hm, rust_doc_collect, List.takeWhile_cons, ih]
      · simp [rust_doc_loop, hc, hm, rust_doc_collect, List.takeWhile_cons, ih]
    · by_cases hb : pyStrip s.type = ""
      · simp [rust_doc_loop, hc, hb, rust_doc_collect, List.takeWhile_cons, ih]
      · simp [rust_doc_loop, hc, hb, rust_doc_collect, List.takeWhile_cons]

theorem cpp_doc_loop_eq (l : List TSNode) :
    ∀ docs, cpp_doc_loop l docs = docs ++ cpp_doc_collect l := by
  induction l with
  | nil => intro docs; simp [cpp_doc_loop, cpp_doc_collect]
  | cons s rest ih =>
    intro docs
    by_cases hc : s.type = "comment"
    · by_cases hm : cpp_doc_marked (pyStrip s.text)
      · simp [cpp_doc_loop, hc, hm, cpp_doc_collect, List.takeWhile_cons, ih]
      · simp [cpp_doc_loop, hc, hm, cpp_doc_collect, List.takeWhile_cons, ih]
    · by_cases hb : s.isNamed
      · simp [cpp_doc_loop, hc, hb, cpp_doc_collect, List.takeWhile_cons]
      · simp [cpp_doc_loop, hc, hb, cpp_doc_collect, List.takeWhile_cons, ih]

/-! ### Helper lemmas: the extraction drivers -/

theorem tree_walk_drive_all_ok (rs : List FunctionSchema) :
    tree_walk_drive (rs.map Except.ok) = rs := by
  induction rs with
  | nil => rfl
  | cons r rest ih => simp [tree_walk_drive] at ih ⊢; exact ih

theorem tree_walk_drive_append (xs ys : List (Except String FunctionSchema)) :
    tree_walk_drive (xs ++ ys) = tree_walk_drive xs ++ tree_walk_drive ys := by
  simp [tree_walk_drive, List.filterMap_append]

theorem tree_walk_drive_error (e : String) (t : List (Except String FunctionSchema)) :
    tree_walk_drive (Except.error e :: t) = tree_walk_drive t := by
  simp [tree_walk_drive]

theorem py_nodes_loop_all_ok (rs : List FunctionSchema) :
    ∀ acc, py_nodes_loop (rs.map Except.ok) acc = acc.reverse ++ rs := by
  induction rs with
  | nil => intro acc; simp [py_nodes_loop]
  | cons r rest ih => intro acc; simp [py_nodes_loop, ih]

theorem py_nodes_loop_error (rs : List FunctionSchema) (e : String)
    (t : List (Except String FunctionSchema)) :
    ∀ acc, py_nodes_loop (rs.map Except.ok ++ Except.error e :: t) acc = [] := by
  induction rs with
  | nil => intro acc; simp [py_nodes_loop]
  | cons r rest ih => intro acc; simp [py_nodes_loop, ih]

theorem js_walk_drive_all_ok (rs : List FunctionSchema) :
    js_walk_drive (rs.map Except.ok) = .ok rs := by
  induction rs with
  | nil => rfl
  | cons r rest ih => simp [js_walk_drive, ih]

theorem js_walk_drive_error (rs : List FunctionSchema) (e : String)
    (t : List (Except String FunctionSchema)) :
    js_walk_drive (rs.map Except.ok ++ Except.error e :: t) = .error e := by
  induction rs with
  | nil => simp [js_walk_drive]
  | cons r rest ih => simp [js_walk_drive, ih]

/-! ### Helper lemmas: build_index branch behaviour -/

theorem build_index_of_no_candidates (embedFn : String → Option (List Rat))
    (clock : Nat → Nat) (root : String) (files : List SrcFile) (lang : String)
    (store : VectorStore) (h : candidate_files files lang = []) :
    build_index embedFn clock root files lang store
      = { store := get_or_create_collection
            (clear_chroma_collection store ("functions_" ++ lang)) ("functions_" ++ lang)
          log := match getCollection? store ("functions_" ++ lang) with
            | some es => if es.isEmpty then [] else [LogEntry.clearedItems es.length]
            | none => []
          result := .error ("No ." ++ lang ++ " files found in " ++ root) } := by
  simp [build_index, h]

theorem build_index_store_of_candidates (embedFn : String → Option (List Rat))
    (clock : Nat → Nat) (root : String) (files : List SrcFile) (lang : String)
    (store : VectorStore) (h : ¬(candidate_files files lang).isEmpty)
    (h2 : ¬(dedupRun lang clock (parsed_functions (candidate_files files lang)) [] 0).1.isEmpty) :
    (build_index embedFn clock root files lang store).store
      = add_in_batches
          (get_or_create_collection (clear_chroma_collection store ("functions_" ++ lang))
            ("functions_" ++ lang))
          ("functions_" ++ lang)
          ((dedupRun lang clock (parsed_functions (candidate_files files lang)) [] 0).1.map
            (mkIndexEntry embedFn))
      ∧ (build_index embedFn clock root files lang store).result = .ok ()
      ∧ (build_index embedFn clock root files lang store).log
          = (match getCollection? store ("functions_" ++ lang) with
              | some es => if es.isEmpty then [] else [LogEntry.clearedItems es.length]
              | none => [])
            ++ [LogEntry.foundFiles (candidate_files files lang).length]
            ++ (candidate_files files lang).map (fun f =>
                match f.parsed with
                | .ok l => LogEntry.parsedFile l.length
                | .error _ => LogEntry.fileError)
            ++ (if (dedupRun lang clock (parsed_functions (candidate_files files lang)) [] 0).2.2
                  > 0
                then [LogEntry.duplicateWarning
                  (dedupRun lang clock (parsed_functions (candidate_files files lang)) [] 0).2.2]
                else [])
            ++ [LogEntry.totalFunctions
                  (dedupRun lang clock (parsed_functions (candidate_files files lang)) [] 0).1.length,
                LogEntry.indexedCount
                  ((dedupRun lang clock (parsed_functions (candidate_files files lang)) [] 0).1.map
                    (mkIndexEntry embedFn)).length
                  (dedupRun lang clock (parsed_functions (candidate_files files lang)) [] 0).1.length] := by
  refine ⟨?_, ?_, ?_⟩ <;> simp [build_index, h, h2]

theorem build_index_of_no_functions (embedFn : String → Option (List Rat))
    (clock : Nat → Nat) (root : String) (files : List SrcFile) (lang : String)
    (store : VectorStore) (h : ¬(candidate_files files lang).isEmpty)
    (h2 : (dedupRun lang clock (parsed_functions (candidate_files files lang)) [] 0).1.isEmpty) :
    (build_index embedFn clock root files lang store).store
      = get_or_create_collection (clear_chroma_collection store ("functions_" ++ lang))
          ("functions_" ++ lang)
      ∧ (build_index embedFn clock root files lang store).result = .ok () := by
  refine ⟨?_, ?_⟩ <;> simp [build_index, h, h2]

/-! ### Claim theorems -/

/-- C1: identity assignment is deterministic — `make_unique_id_uuid` is a pure
function of the tuple `(language, name, filePath, startLine, startColumn)`
(its model takes no state of any kind), so two calls on equal inputs return
equal id strings, and two extraction runs over the same nodes of the same
file produce identical record sequences with identical ids. -/
theorem make_unique_id_uuid_deterministic :
    (∀ (l₁ n₁ p₁ : String) (sl₁ sc₁ : Nat) (l₂ n₂ p₂ : String) (sl₂ sc₂ : Nat),
      l₁ = l₂ → n₁ = n₂ → p₁ = p₂ → sl₁ = sl₂ → sc₁ = sc₂ →
      make_unique_id_uuid l₁ n₁ p₁ sl₁ sc₁ = make_unique_id_uuid l₂ n₂ p₂ sl₂ sc₂)
    ∧ (∀ (fp₁ fp₂ : String) (nodes₁ nodes₂ : List PyNodeData),
      fp₁ = fp₂ → nodes₁ = nodes₂ →
      py_extract_records fp₁ nodes₁ = py_extract_records fp₂ nodes₂
      ∧ (py_extract_records fp₁ nodes₁).map (fun r => r.id)
          = (py_extract_records fp₂ nodes₂).map (fun r => r.id)) := by
  constructor
  · rintro l n p sl sc _ _ _ _ _ rfl rfl rfl rfl rfl
    rfl
  · rintro fp _ nodes _ rfl rfl
    exact ⟨rfl, rfl⟩

/-- Witness for C1 at a concrete input. -/
theorem make_unique_id_uuid_deterministic_witness :
    make_unique_id_uuid "py" "add" "src/app.py" 3 1
      = make_unique_id_uuid "py" "add" "src/app.py" 3 1
    ∧ py_extract_records "src/app.py" [] = py_extract_records "src/app.py" [] :=
  ⟨make_unique_id_uuid_deterministic.1 "py" "add" "src/app.py" 3 1 "py" "add" "src/app.py" 3 1
      rfl rfl rfl rfl rfl,
   (make_unique_id_uuid_deterministic.2 "src/app.py" "src/app.py" [] [] rfl rfl).1⟩

/-- C2 counterexample: a build over a root with zero matching files does
raise the "no files found" error, but the store is NOT left untouched — with
an existing non-empty `functions_py` collection, the collection has already
been cleared when the error is raised. -/
theorem build_index_touches_store_counterexample :
    ((build_index (fun _ => some []) (fun _ => 0) "root" [] "py"
        [("functions_py",
          [{ id := "old", document := "d", metadata := ⟨"n", "", "", "", 1, 1, "p"⟩,
             embedding := [] }])]).result
      = .error "No .py files found in root")
    ∧ (build_index (fun _ => some []) (fun _ => 0) "root" [] "py"
        [("functions_py",
          [{ id := "old", document := "d", metadata := ⟨"n", "", "", "", 1, 1, "p"⟩,
             embedding := [] }])]).store
      ≠ [("functions_py",
          [{ id := "old", document := "d", metadata := ⟨"n", "", "", "", 1, 1, "p"⟩,
             embedding := [] }])] := by
  constructor
  · decide
  · decide

/-- C2 amended: with zero candidate files, `build_index` raises the "no
files found" error, but only after clearing the language's collection and
creating it if absent — the store already holds an empty collection for that
language when the error is raised. -/
theorem build_index_no_files_clears_first (embedFn : String → Option (List Rat))
    (clock : Nat → Nat) (root : String) (files : List SrcFile) (lang : String)
    (store : VectorStore) (h : candidate_files files lang = []) :
    (build_index embedFn clock root files lang store).result
        = .error ("No ." ++ lang ++ " files found in " ++ root)
    ∧ (build_index embedFn clock root files lang store).store
        = get_or_create_collection (clear_chroma_collection store ("functions_" ++ lang))
            ("functions_" ++ lang)
    ∧ getCollection? (build_index embedFn clock root files lang store).store
        ("functions_" ++ lang) = some [] := by
  rw [build_index_of_no_candidates embedFn clock root files lang store h]
  exact ⟨rfl, rfl, cleared_then_created store ("functions_" ++ lang)⟩

/-- Witness for C2's amended claim at a concrete store. -/
theorem build_index_no_files_clears_first_witness :
    candidate_files [] "py" = []
    ∧ ((build_index (fun _ => some []) (fun _ => 0) "r" [] "py" []).result
        = .error ("No ." ++ "py" ++ " files found in " ++ "r")
      ∧ (build_index (fun _ => some []) (fun _ => 0) "r" [] "py" []).store
          = get_or_create_collection (clear_chroma_collection [] ("functions_" ++ "py"))
              ("functions_" ++ "py")
      ∧ getCollection? (build_index (fun _ => some []) (fun _ => 0) "r" [] "py" []).store
          ("functions_" ++ "py") = some []) :=
  ⟨by decide,
   build_index_no_files_clears_first (fun _ => some []) (fun _ => 0) "r" [] "py" [] (by decide)⟩

/-- C3 counterexample: for a record named `x` with docstring `y` and no
arguments or return type, the text handed to the embedder is
`"x() -> None\ny"`, not the persisted documentText `"x y"`, and with an
embedder that distinguishes those texts the persisted vector differs from
the embedding of the documentText. -/
theorem embedding_text_mismatch_counterexample :
    embed_function_payload
        { id := "i", name := "x", source_code := "", file_path := "p", args := [],
          docstring := some "y", return_type := none, start_line := 1, end_line := 1 }
      ≠ doc_text
        { id := "i", name := "x", source_code := "", file_path := "p", args := [],
          docstring := some "y", return_type := none, start_line := 1, end_line := 1 }
    ∧ (mkIndexEntry (fun s => some [(s.length : Rat)])
        { id := "i", name := "x", source_code := "", file_path := "p", args := [],
          docstring := some "y", return_type := none, start_line := 1, end_line := 1 }).embedding
      ≠ ((fun (s : String) => some [(s.length : Rat)]) (doc_text
        { id := "i", name := "x", source_code := "", file_path := "p", args := [],
          docstring := some "y", return_type := none, start_line := 1,
          end_line := 1 })).getD (List.replicate 384 0) := by
  constructor
  · decide
  · decide

/-- C3 amended: the persisted documentText is `"<name> <docComment-or-empty>"`
as claimed, and build and query do share the one embedding function
(`embed_function` is `embed_text` composed with a payload builder) — but the
persisted vector is the embedding of the signature payload
`"<name>(<args>) -> <returnType-or-None>\n<docComment-or-empty>"`, not of the
documentText, with a 384-long zero vector substituted on embedder failure. -/
theorem document_and_embedding_texts (f : FunctionSchema)
    (embedFn : String → Option (List Rat)) (embed_text : String → List Rat) :
    doc_text f = f.name ++ " " ++ (f.docstring.getD "")
    ∧ (mkIndexEntry embedFn f).document = doc_text f
    ∧ (mkIndexEntry embedFn f).embedding
        = (embedFn (embed_function_payload f)).getD (List.replicate 384 0)
    ∧ embed_function embed_text f = embed_text (embed_function_payload f)
    ∧ embed_function_payload f
        = f.name ++ "(" ++ String.intercalate ", " f.args ++ ") -> " ++
          pyReprOptStr f.return_type ++ "\n" ++ (f.docstring.getD "") :=
  ⟨rfl, rfl, rfl, rfl, rfl⟩

/-- C4 counterexample: with one malformed node between two well-formed ones,
the Python extractor returns the empty list (not two records) and the
JavaScript extractor propagates the exception. -/
theorem per_node_failure_counterexample :
    py_parse_drive (.ok
        [Except.ok (⟨"a", "f", "", "p", [], none, none, 1, 1⟩ : FunctionSchema),
         Except.error "malformed node",
         Except.ok (⟨"b", "g", "", "p", [], none, none, 3, 3⟩ : FunctionSchema)])
      = []
    ∧ js_walk_drive
        [Except.ok (⟨"a", "f", "", "p", [], none, none, 1, 1⟩ : FunctionSchema),
         Except.error "malformed node",
         Except.ok (⟨"b", "g", "", "p", [], none, none, 3, 3⟩ : FunctionSchema)]
      = .error "malformed node"
    ∧ ([] : List FunctionSchema)
      ≠ [(⟨"a", "f", "", "p", [], none, none, 1, 1⟩ : FunctionSchema),
         (⟨"b", "g", "", "p", [], none, none, 3, 3⟩ : FunctionSchema)] := by
  refine ⟨by decide, by decide, by decide⟩

/-- C4 amended: the per-node try/except exists in the Rust, C++ and Go
walkers.  In the C++ and Go extractors it gives the intended graceful
degradation — a failing node is skipped and exactly the well-formed records
are kept.  In the Rust extractor every node fails inside that try, because
`_parse_function_node` passes `None` for `FunctionSchema`'s required `str`
field `source_code`, so pydantic rejects every record and a Rust file always
yields zero records.  The Python extractor's single file-level try/except
turns any node failure into an empty result for the whole file, and the
JavaScript walker has no handler at all, so the first node failure
propagates out of extraction. -/
theorem extraction_failure_policies (rs₁ rs₂ : List FunctionSchema) (e : String)
    (fp lang : String) (nds : List RustNodeData) :
    tree_walk_drive (rs₁.map Except.ok ++ Except.error e :: rs₂.map Except.ok) = rs₁ ++ rs₂
    ∧ tree_walk_drive (rs₁.map Except.ok) = rs₁
    ∧ (∀ nd, rust_parse_function_node fp lang nd
        = .error "validation error for FunctionSchema: source_code none is not an allowed value")
    ∧ tree_walk_drive (nds.map (rust_parse_function_node fp lang)) = []
    ∧ py_parse_drive (.ok (rs₁.map Except.ok ++ Except.error e :: rs₂.map Except.ok)) = []
    ∧ js_walk_drive (rs₁.map Except.ok ++ Except.error e :: rs₂.map Except.ok) = .error e
    ∧ py_parse_drive (.ok (rs₁.map Except.ok)) = rs₁
    ∧ js_walk_drive (rs₁.map Except.ok) = .ok rs₁ := by
  refine ⟨?_, tree_walk_drive_all_ok rs₁, fun nd => rfl, ?_, ?_,
    js_walk_drive_error rs₁ e (rs₂.map Except.ok), ?_, js_walk_drive_all_ok rs₁⟩
  · rw [tree_walk_drive_append, tree_walk_drive_error, tree_walk_drive_all_ok,
      tree_walk_drive_all_ok]
  · induction nds with
    | nil => rfl
    | cons nd rest ih =>
      simp [tree_walk_drive, rust_parse_function_node, FunctionSchema_validate]
  · exact py_nodes_loop_error rs₁ e (rs₂.map Except.ok) []
  · show py_nodes_loop (rs₁.map Except.ok) [] = rs₁
    rw [py_nodes_loop_all_ok]
    rfl

/-- C5 counterexample: an unrelated (non-doc-style) comment between two doc
comments does not stop the Rust scan — the code accumulates both doc lines
across it, while the claimed rule would keep only the nearest one. -/
theorem doc_scan_unrelated_comment_counterexample :
    rust_extract_doc
        [⟨"line_comment", "/// first line", true⟩, ⟨"line_comment", "// unrelated", true⟩,
         ⟨"line_comment", "/// second line", true⟩]
      = some "first line\nsecond line"
    ∧ rust_doc_scan_claim
        [⟨"line_comment", "/// first line", true⟩, ⟨"line_comment", "// unrelated", true⟩,
         ⟨"line_comment", "/// second line", true⟩]
      = some "second line"
    ∧ some "first line\nsecond line" ≠ some "second line" := by
  refine ⟨by decide, by decide, by decide⟩

/-- C5 amended: the Rust and C++ preceding-sibling scans stop at the first
non-comment sibling (for C++, the first *named* non-comment sibling), but a
non-doc-style comment is merely passed over, not a stopper, so the
accumulated run of doc comments need not be contiguous; doc lines are joined
top-to-bottom, and in the spec's scenario (an unrelated statement, then two
adjacent doc lines, then the function) exactly the two lines are returned. -/
theorem doc_scan_characterization :
    (∀ before : List TSNode,
      rust_extract_doc before
        = (if (rust_doc_collect before.reverse).isEmpty then none
           else some (String.intercalate "\n" (rust_doc_collect before.reverse).reverse)))
    ∧ (∀ before : List TSNode,
      cpp_extract_doc before
        = (if (cpp_doc_collect before.reverse).isEmpty then none
           else some (String.intercalate "\n" (cpp_doc_collect before.reverse).reverse)))
    ∧ rust_extract_doc
        [⟨"let_declaration", "let y = 0;", true⟩, ⟨"line_comment", "/// first line", true⟩,
         ⟨"line_comment", "/// second line", true⟩]
      = some "first line\nsecond line" := by
  refine ⟨?_, ?_, by decide⟩
  · intro before
    simp [rust_extract_doc, rust_doc_loop_eq]
  · intro before
    simp [cpp_extract_doc, cpp_doc_loop_eq]

/-- C6 counterexample: two successful builds whose reported totals differ
(one function found versus three) return the *same* value — `build_index`
returns plain `None`; the totals, duplicate count and errors are only
printed, so no BuildReport can be a function of the return value. -/
theorem build_report_not_returned_counterexample :
    (build_index (fun _ => some []) (fun _ => 0) "r"
        [⟨["x.py"], "py", .ok [⟨"", "f", "", "x.py", [], none, none, 1, 2⟩]⟩] "py" []).result
      = (build_index (fun _ => some []) (fun _ => 0) "r"
        [⟨["x.py"], "py", .ok
          [⟨"", "f", "", "x.py", [], none, none, 1, 2⟩,
           ⟨"", "g", "", "x.py", [], none, none, 3, 4⟩,
           ⟨"", "h", "", "x.py", [], none, none, 5, 6⟩]⟩] "py" []).result
    ∧ (build_index (fun _ => some []) (fun _ => 0) "r"
        [⟨["x.py"], "py", .ok [⟨"", "f", "", "x.py", [], none, none, 1, 2⟩]⟩] "py" []).result
      = .ok ()
    ∧ LogEntry.totalFunctions 1 ∈ (build_index (fun _ => some []) (fun _ => 0) "r"
        [⟨["x.py"], "py", .ok [⟨"", "f", "", "x.py", [], none, none, 1, 2⟩]⟩] "py" []).log
    ∧ LogEntry.totalFunctions 3 ∈ (build_index (fun _ => some []) (fun _ => 0) "r"
        [⟨["x.py"], "py", .ok
          [⟨"", "f", "", "x.py", [], none, none, 1, 2⟩,
           ⟨"", "g", "", "x.py", [], none, none, 3, 4⟩,
           ⟨"", "h", "", "x.py", [], none, none, 5, 6⟩]⟩] "py" []).log
    ∧ (build_index (fun _ => some []) (fun _ => 0) "r"
        [⟨["x.py"], "py", .ok [⟨"", "f", "", "x.py", [], none, none, 1, 2⟩]⟩] "py" []).log
      ≠ (build_index (fun _ => some []) (fun _ => 0) "r"
        [⟨["x.py"], "py", .ok
          [⟨"", "f", "", "x.py", [], none, none, 1, 2⟩,
           ⟨"", "g", "", "x.py", [], none, none, 3, 4⟩,
           ⟨"", "h", "", "x.py", [], none, none, 5, 6⟩]⟩] "py" []).log := by
  refine ⟨by decide, by decide, by decide, by decide, by decide⟩

/-- C6 amended: a successful build returns plain unit (Python `None`); the
files-scanned count, total-functions count and indexed count exist only as
printed output, and the per-file/per-record errors likewise — no BuildReport
value is returned. -/
theorem build_index_returns_unit (embedFn : String → Option (List Rat))
    (clock : Nat → Nat) (root : String) (files : List SrcFile) (lang : String)
    (store : VectorStore)
    (h1 : ¬(candidate_files files lang).isEmpty)
    (h2 : ¬(dedupRun lang clock (parsed_functions (candidate_files files lang)) [] 0).1.isEmpty) :
    (build_index embedFn clock root files lang store).result = .ok ()
    ∧ LogEntry.foundFiles (candidate_files files lang).length
        ∈ (build_index embedFn clock root files lang store).log
    ∧ LogEntry.totalFunctions
        (dedupRun lang clock (parsed_functions (candidate_files files lang)) [] 0).1.length
        ∈ (build_index embedFn clock root files lang store).log
    ∧ LogEntry.indexedCount
        (dedupRun lang clock (parsed_functions (candidate_files files lang)) [] 0).1.length
        (dedupRun lang clock (parsed_functions (candidate_files files lang)) [] 0).1.length
        ∈ (build_index embedFn clock root files lang store).log := by
  obtain ⟨hst, hres, hlog⟩ :=
    build_index_store_of_candidates embedFn clock root files lang store h1 h2
  refine ⟨hres, ?_, ?_, ?_⟩
  · rw [hlog]
    simp
  · rw [hlog]
    simp
  · rw [hlog]
    simp

/-- Witness for C6's amended claim at a concrete one-file build. -/
theorem build_index_returns_unit_witness :
    (build_index (fun _ => some []) (fun _ => 0) "r"
        [⟨["x.py"], "py", .ok [⟨"", "f", "", "x.py", [], none, none, 1, 2⟩]⟩] "py" []).result
      = .ok ()
    ∧ LogEntry.foundFiles (candidate_files
        [⟨["x.py"], "py", .ok [⟨"", "f", "", "x.py", [], none, none, 1, 2⟩]⟩] "py").length
        ∈ (build_index (fun _ => some []) (fun _ => 0) "r"
          [⟨["x.py"], "py", .ok [⟨"", "f", "", "x.py", [], none, none, 1, 2⟩]⟩] "py" []).log
    ∧ LogEntry.totalFunctions
        (dedupRun "py" (fun _ => 0) (parsed_functions (candidate_files
          [⟨["x.py"], "py", .ok [⟨"", "f", "", "x.py", [], none, none, 1, 2⟩]⟩] "py")) [] 0).1.length
        ∈ (build_index (fun _ => some []) (fun _ => 0) "r"
          [⟨["x.py"], "py", .ok [⟨"", "f", "", "x.py", [], none, none, 1, 2⟩]⟩] "py" []).log
    ∧ LogEntry.indexedCount
        (dedupRun "py" (fun _ => 0) (parsed_functions (candidate_files
          [⟨["x.py"], "py", .ok [⟨"", "f", "", "x.py", [], none, none, 1, 2⟩]⟩] "py")) [] 0).1.length
        (dedupRun "py" (fun _ => 0) (parsed_functions (candidate_files
          [⟨["x.py"], "py", .ok [⟨"", "f", "", "x.py", [], none, none, 1, 2⟩]⟩] "py")) [] 0).1.length
        ∈ (build_index (fun _ => some []) (fun _ => 0) "r"
          [⟨["x.py"], "py", .ok [⟨"", "f", "", "x.py", [], none, none, 1, 2⟩]⟩] "py" []).log :=
  build_index_returns_unit (fun _ => some []) (fun _ => 0) "r"
    [⟨["x.py"], "py", .ok [⟨"", "f", "", "x.py", [], none, none, 1, 2⟩]⟩] "py" []
    (by decide) (by decide)

/-- C9: during a build the extractor-assigned id is discarded — the record's
id plays no role in the processing — and the recorded base id is
`make_unique_id` with start column literally 0, keyed on the language, the
name, the last two path components and the start line: records agreeing on
those get the same base id whatever the rest of their paths. -/
theorem indexer_id_overwrite :
    (∀ (lang : String) (r₁ r₂ : FunctionSchema),
      r₁.name = r₂.name → r₁.start_line = r₂.start_line →
      relPathOf r₁.file_path = relPathOf r₂.file_path →
      record_base_id lang r₁ = record_base_id lang r₂)
    ∧ (∀ (lang : String) (r : FunctionSchema),
      record_base_id lang r = make_unique_id lang r.name r.file_path r.start_line 0)
    ∧ (∀ (lang : String) (clock : Nat → Nat) (f : FunctionSchema)
        (rest : List FunctionSchema) (seen : List String) (dup : Nat) (x : String),
      dedupRun lang clock ({ f with id := x } :: rest) seen dup
        = dedupRun lang clock (f :: rest) seen dup) := by
  refine ⟨?_, fun lang r => rfl, fun lang clock f rest seen dup x => rfl⟩
  intro lang r₁ r₂ hn hl hp
  unfold record_base_id
  rw [make_unique_id_eq, make_unique_id_eq, hn, hl, hp]

/-- Witness for C9: same name, same line, same last-two path components but
different roots and different extractor ids — same base id. -/
theorem indexer_id_overwrite_witness :
    record_base_id "py" ⟨"idA", "f", "", "a/q/x.py", [], none, none, 7, 9⟩
      = record_base_id "py" ⟨"idB", "f", "", "p/b/q/x.py", [], none, none, 7, 9⟩
    ∧ dedupRun "py" (fun _ => 0)
        [({ (⟨"idA", "f", "", "a/q/x.py", [], none, none, 7, 9⟩ : FunctionSchema)
            with id := "idC" } : FunctionSchema)] [] 0
      = dedupRun "py" (fun _ => 0)
        [(⟨"idA", "f", "", "a/q/x.py", [], none, none, 7, 9⟩ : FunctionSchema)] [] 0 :=
  ⟨indexer_id_overwrite.1 "py"
      ⟨"idA", "f", "", "a/q/x.py", [], none, none, 7, 9⟩
      ⟨"idB", "f", "", "p/b/q/x.py", [], none, none, 7, 9⟩ rfl rfl (by decide),
   indexer_id_overwrite.2.2 "py" (fun _ => 0)
      ⟨"idA", "f", "", "a/q/x.py", [], none, none, 7, 9⟩ [] [] 0 "idC"⟩

/-- C10: the alias table sends both `rs` and `rust` to `rust`, and the build
globs `**/*.<language>`, so a Rust build only matches the extension `.rust`:
on a repository whose files all have extension `rs` the candidate list is
empty and the build aborts with the "no files found" error. -/
theorem rust_glob_mismatch :
    aliasLookup "rs" = some "rust"
    ∧ aliasLookup "rust" = some "rust"
    ∧ ∀ (embedFn : String → Option (List Rat)) (clock : Nat → Nat) (root : String)
        (files : List SrcFile) (store : VectorStore),
        (∀ f ∈ files, f.ext = "rs") →
        candidate_files files "rust" = []
        ∧ (∀ out, index_command embedFn clock root files "rs" store = .ok out →
            out.result = .error ("No .rust files found in " ++ root)) := by
  refine ⟨by decide, by decide, ?_⟩
  intro embedFn clock root files store hext
  have hcand : candidate_files files "rust" = [] := by
    unfold candidate_files
    have h1 : files.filter (fun f => f.ext == "rust") = [] := by
      rw [List.filter_eq_nil_iff]
      intro f hf
      simp [hext f hf]
    rw [h1]
    rfl
  refine ⟨hcand, ?_⟩
  intro out hout
  have hnorm : index_command embedFn clock root files "rs" store
      = .ok (build_index embedFn clock root files "rust" store) := rfl
  rw [hnorm] at hout
  injection hout with h
  rw [← h, build_index_of_no_candidates embedFn clock root files "rust" store hcand]
  rfl

/-- Witness for C10 on a repository holding one `.rs` file. -/
theorem rust_glob_mismatch_witness :
    candidate_files [⟨["m", "lib.rs"], "rs", Except.ok []⟩] "rust" = []
    ∧ (build_index (fun _ => some []) (fun _ => 0) "r"
        [⟨["m", "lib.rs"], "rs", Except.ok []⟩] "rust" []).result
      = .error ("No .rust files found in " ++ "r") :=
  ⟨(rust_glob_mismatch.2.2 (fun _ => some []) (fun _ => 0) "r"
      [⟨["m", "lib.rs"], "rs", Except.ok []⟩] [] (by decide)).1,
   (rust_glob_mismatch.2.2 (fun _ => some []) (fun _ => 0) "r"
      [⟨["m", "lib.rs"], "rs", Except.ok []⟩] [] (by decide)).2
     (build_index (fun _ => some []) (fun _ => 0) "r"
        [⟨["m", "lib.rs"], "rs", Except.ok []⟩] "rust" []) rfl⟩

/-- C7: a query against a never-built language collection fails with the
collection-not-found condition (a `typer.Exit` after the "does not exist"
message); a built-but-empty collection yields zero hits without error; and
each returned hit carries the entry's id, document, metadata and distance,
with hits ordered by nondecreasing distance (nearest first). -/
theorem query_error_and_ordering (embed_text : String → List Rat)
    (dist : List Rat → List Rat → Rat) (store : VectorStore) (q lang : String)
    (top_k : Nat) (nl : String) (halias : aliasLookup (pyLower lang) = some nl) :
    (getCollection? store ("functions_" ++ nl) = none →
      query embed_text dist store q lang top_k
        = .error (.collectionMissing ("functions_" ++ nl)))
    ∧ (getCollection? store ("functions_" ++ nl) = some [] →
      query embed_text dist store q lang top_k = .ok [])
    ∧ (∀ entries, getCollection? store ("functions_" ++ nl) = some entries →
        ∃ hits, query embed_text dist store q lang top_k = .ok hits
          ∧ hits.length = min top_k entries.length
          ∧ hits.Chain' (fun h₁ h₂ => ∃ d₁ d₂,
              h₁.distance = some d₁ ∧ h₂.distance = some d₂ ∧ d₁ ≤ d₂)
          ∧ ∀ h ∈ hits, ∃ en ∈ entries,
              h = Hit.mk en.id en.document en.metadata
                (some (dist (embed_text q) en.embedding))) := by
  refine ⟨?_, ?_, ?_⟩
  · intro h
    simp [query, halias, h]
  · intro h
    simp [query, halias, h]
  · intro entries h
    refine ⟨((entries.insertionSort (fun e₁ e₂ =>
        dist (embed_text q) e₁.embedding ≤ dist (embed_text q) e₂.embedding)).take
          top_k).map
        (fun e => Hit.mk e.id e.document e.metadata
          (some (dist (embed_text q) e.embedding))), ?_, ?_, ?_, ?_⟩
    · simp [query, halias, h]
    · rw [List.length_map, List.length_take,
        (List.perm_insertionSort _ entries).length_eq]
    · haveI : IsTotal IndexEntry (fun e₁ e₂ =>
          dist (embed_text q) e₁.embedding ≤ dist (embed_text q) e₂.embedding) :=
        ⟨fun a b => le_total _ _⟩
      haveI : IsTrans IndexEntry (fun e₁ e₂ =>
          dist (embed_text q) e₁.embedding ≤ dist (embed_text q) e₂.embedding) :=
        ⟨fun a b c hab hbc => le_trans hab hbc⟩
      have hs : (entries.insertionSort (fun e₁ e₂ =>
          dist (embed_text q) e₁.embedding ≤ dist (embed_text q) e₂.embedding)).Pairwise
            (fun e₁ e₂ =>
              dist (embed_text q) e₁.embedding ≤ dist (embed_text q) e₂.embedding) :=
        List.sorted_insertionSort _ entries
      have ht := hs.sublist (List.take_sublist top_k _)
      refine List.Pairwise.chain' ((List.pairwise_map).mpr (ht.imp ?_))
      intro a b hab
      exact ⟨dist (embed_text q) a.embedding, dist (embed_text q) b.embedding, rfl, rfl, hab⟩
    · intro hh hmem
      rw [List.mem_map] at hmem
      obtain ⟨e, he, rfl⟩ := hmem
      refine ⟨e, ?_, rfl⟩
      exact ((List.perm_insertionSort _ entries).mem_iff).mp (List.mem_of_mem_take he)

/-- Witness for C7: a missing collection errors; a two-entry collection
yields structured, distance-ordered hits. -/
theorem query_error_and_ordering_witness :
    (query (fun _ => ([] : List Rat)) (fun _ v => v.headD 0) [] "factorial" "py" 3
      = .error (.collectionMissing ("functions_" ++ "py")))
    ∧ (∃ hits, query (fun _ => ([] : List Rat)) (fun _ v => v.headD 0)
          [("functions_" ++ "py",
            [⟨"i2", "d2", ⟨"g", "", "", "", 1, 1, "p"⟩, [2]⟩,
             ⟨"i1", "d1", ⟨"f", "", "", "", 1, 1, "p"⟩, [1]⟩])]
          "factorial" "py" 3
        = .ok hits
        ∧ hits.length = min 3
            ([(⟨"i2", "d2", ⟨"g", "", "", "", 1, 1, "p"⟩, [2]⟩ : IndexEntry),
              ⟨"i1", "d1", ⟨"f", "", "", "", 1, 1, "p"⟩, [1]⟩]).length
        ∧ hits.Chain' (fun h₁ h₂ => ∃ d₁ d₂,
            h₁.distance = some d₁ ∧ h₂.distance = some d₂ ∧ d₁ ≤ d₂)
        ∧ ∀ h ∈ hits, ∃ en ∈
            [(⟨"i2", "d2", ⟨"g", "", "", "", 1, 1, "p"⟩, [2]⟩ : IndexEntry),
             ⟨"i1", "d1", ⟨"f", "", "", "", 1, 1, "p"⟩, [1]⟩],
            h = Hit.mk en.id en.document en.metadata
              (some ((fun (_ : String) (v : List Rat) => v.headD 0) "factorial" en.embedding))) :=
  ⟨(query_error_and_ordering (fun _ => ([] : List Rat)) (fun _ v => v.headD 0) []
      "factorial" "py" 3 "py" (by decide)).1 (by decide),
   (query_error_and_ordering (fun _ => ([] : List Rat)) (fun _ v => v.headD 0)
      [("functions_" ++ "py",
        [⟨"i2", "d2", ⟨"g", "", "", "", 1, 1, "p"⟩, [2]⟩,
         ⟨"i1", "d1", ⟨"f", "", "", "", 1, 1, "p"⟩, [1]⟩])]
      "factorial" "py" 3 "py" (by decide)).2.2
     [⟨"i2", "d2", ⟨"g", "", "", "", 1, 1, "p"⟩, [2]⟩,
      ⟨"i1", "d1", ⟨"f", "", "", "", 1, 1, "p"⟩, [1]⟩] (by decide)⟩

/-- C8: within one build the ids submitted to the vector store are pairwise
distinct, provided the timestamps drawn on collisions are (as the spec's
"monotonically distinct suffix" intends) pairwise distinct, at least nine
digits and underscore-free — the collision branch appends
`"_" ++ str(int(time.time()*1e6))` before recording, the duplicate counter
counts exactly the suffixed records, and a positive count is surfaced in the
printed warning. -/
theorem submitted_ids_nodup (embedFn : String → Option (List Rat)) (clock : Nat → Nat)
    (root : String) (files : List SrcFile) (lang : String) (store : VectorStore)
    (hinj : ∀ j, j < (parsed_functions (candidate_files files lang)).length →
      ∀ k, k < (parsed_functions (candidate_files files lang)).length → j ≠ k →
      Nat.repr (clock j) ≠ Nat.repr (clock k))
    (hlen : ∀ k, k < (parsed_functions (candidate_files files lang)).length →
      9 ≤ (Nat.repr (clock k)).data.length)
    (hund : ∀ k, k < (parsed_functions (candidate_files files lang)).length →
      '_' ∉ (Nat.repr (clock k)).data) :
    (∀ es, getCollection? (build_index embedFn clock root files lang store).store
        ("functions_" ++ lang) = some es → (es.map (fun e => e.id)).Nodup)
    ∧ (dedupRun lang clock (parsed_functions (candidate_files files lang)) [] 0).2.2
        = (dedupRun lang clock (parsed_functions (candidate_files files lang)) [] 0).1.countP
            (fun r => r.id != record_base_id lang r)
    ∧ ((dedupRun lang clock (parsed_functions (candidate_files files lang)) [] 0).2.2 > 0 →
        LogEntry.duplicateWarning
          (dedupRun lang clock (parsed_functions (candidate_files files lang)) [] 0).2.2
          ∈ (build_index embedFn clock root files lang store).log) := by
  obtain ⟨h1, hnodup, h3, h4, h5, h6, hcount⟩ :=
    dedup_inv lang clock (parsed_functions (candidate_files files lang)).length hinj hlen hund
      (parsed_functions (candidate_files files lang)) [] 0 (by omega)
      (by intro s hs; cases hs)
  refine ⟨?_, by simpa using hcount, ?_⟩
  · intro es hes
    by_cases hc : (candidate_files files lang).isEmpty
    · rw [build_index_of_no_candidates embedFn clock root files lang store
        (List.isEmpty_iff.mp hc)] at hes
      have he := (cleared_then_created store ("functions_" ++ lang)).symm.trans hes
      injection he with he'
      rw [← he']
      simp
    · by_cases hf : (dedupRun lang clock (parsed_functions (candidate_files files lang))
          [] 0).1.isEmpty
      · rw [(build_index_of_no_functions embedFn clock root files lang store hc hf).1] at hes
        have he := (cleared_then_created store ("functions_" ++ lang)).symm.trans hes
        injection he with he'
        rw [← he']
        simp
      · obtain ⟨hst, _, _⟩ :=
          build_index_store_of_candidates embedFn clock root files lang store hc hf
        rw [hst, add_in_batches_self, cleared_then_created] at hes
        simp at hes
        rw [← hes]
        have hids : (((dedupRun lang clock (parsed_functions (candidate_files files lang))
              [] 0).1.map (mkIndexEntry embedFn)).map (fun e => e.id))
            = (dedupRun lang clock (parsed_functions (candidate_files files lang))
              [] 0).1.map (fun r => r.id) := by
          rw [List.map_map]
          rfl
        rw [hids]
        exact hnodup
  · intro hpos
    by_cases hc : (candidate_files files lang).isEmpty
    · exfalso
      rw [List.isEmpty_iff.mp hc] at hpos
      simp [parsed_functions, dedupRun] at hpos
    · by_cases hf : (dedupRun lang clock (parsed_functions (candidate_files files lang))
          [] 0).1.isEmpty
      · exfalso
        have hfe : (parsed_functions (candidate_files files lang)) = [] := by
          have hl := dedupRun_length lang clock
            (parsed_functions (candidate_files files lang)) [] 0
          rw [List.isEmpty_iff.mp hf] at hl
          exact List.length_eq_zero.mp hl.symm
        rw [hfe] at hpos
        simp [dedupRun] at hpos
      · obtain ⟨_, _, hlog⟩ :=
          build_index_store_of_candidates embedFn clock root files lang store hc hf
        rw [hlog]
        simp [hpos]

/-- Witness for C8: two files whose paths end in the same two components and
whose single functions share a name and start line collide on the base id;
with microsecond-scale timestamps the recorded ids are still distinct and
the collision is counted. -/
theorem submitted_ids_nodup_witness :
    (∀ es, getCollection? (build_index (fun _ => some []) (fun k => 1000000000 + k) "r"
        [⟨["a", "q", "x.py"], "py", .ok [⟨"", "f", "", "a/q/x.py", [], none, none, 1, 2⟩]⟩,
         ⟨["p", "b", "q", "x.py"], "py",
          .ok [⟨"", "f", "", "p/b/q/x.py", [], none, none, 1, 2⟩]⟩] "py" []).store
        ("functions_" ++ "py") = some es → (es.map (fun e => e.id)).Nodup)
    ∧ (dedupRun "py" (fun k => 1000000000 + k) (parsed_functions (candidate_files
        [⟨["a", "q", "x.py"], "py", .ok [⟨"", "f", "", "a/q/x.py", [], none, none, 1, 2⟩]⟩,
         ⟨["p", "b", "q", "x.py"], "py",
          .ok [⟨"", "f", "", "p/b/q/x.py", [], none, none, 1, 2⟩]⟩] "py")) [] 0).2.2
        = (dedupRun "py" (fun k => 1000000000 + k) (parsed_functions (candidate_files
        [⟨["a", "q", "x.py"], "py", .ok [⟨"", "f", "", "a/q/x.py", [], none, none, 1, 2⟩]⟩,
         ⟨["p", "b", "q", "x.py"], "py",
          .ok [⟨"", "f", "", "p/b/q/x.py", [], none, none, 1, 2⟩]⟩] "py")) [] 0).1.countP
            (fun r => r.id != record_base_id "py" r)
    ∧ ((dedupRun "py" (fun k => 1000000000 + k) (parsed_functions (candidate_files
        [⟨["a", "q", "x.py"], "py", .ok [⟨"", "f", "", "a/q/x.py", [], none, none, 1, 2⟩]⟩,
         ⟨["p", "b", "q", "x.py"], "py",
          .ok [⟨"", "f", "", "p/b/q/x.py", [], none, none, 1, 2⟩]⟩] "py")) [] 0).2.2 > 0 →
        LogEntry.duplicateWarning
          (dedupRun "py" (fun k => 1000000000 + k) (parsed_functions (candidate_files
            [⟨["a", "q", "x.py"], "py",
              .ok [⟨"", "f", "", "a/q/x.py", [], none, none, 1, 2⟩]⟩,
             ⟨["p", "b", "q", "x.py"], "py",
              .ok [⟨"", "f", "", "p/b/q/x.py", [], none, none, 1, 2⟩]⟩] "py")) [] 0).2.2
          ∈ (build_index (fun _ => some []) (fun k => 1000000000 + k) "r"
            [⟨["a", "q", "x.py"], "py",
              .ok [⟨"", "f", "", "a/q/x.py", [], none, none, 1, 2⟩]⟩,
             ⟨["p", "b", "q", "x.py"], "py",
              .ok [⟨"", "f", "", "p/b/q/x.py", [], none, none, 1, 2⟩]⟩] "py" []).log) :=
  submitted_ids_nodup (fun _ => some []) (fun k => 1000000000 + k) "r"
    [⟨["a", "q", "x.py"], "py", .ok [⟨"", "f", "", "a/q/x.py", [], none, none, 1, 2⟩]⟩,
     ⟨["p", "b", "q", "x.py"], "py",
      .ok [⟨"", "f", "", "p/b/q/x.py", [], none, none, 1, 2⟩]⟩] "py" []
    (by decide) (by decide) (by decide)


/-! ### Validation of the hash embeddings against the reference test vectors
of RFC 1321 (MD5) and RFC 4122 (UUID5), and of the path/string helpers against
CPython behaviour. -/

example : md5hex "abc" = "900150983cd24fb0d6963f7d28e17f72" := by decide
example : uuid5String dnsNamespaceBytes "python.org" = "886313e1-3b8a-5372-9b90-0c9aee199e5d" := by decide
example : pyPathParts "/a/b/c.py" = ["/", "a", "b", "c.py"] := by decide
example : pyPathParts "a//b/./c.py" = ["a", "b", "c.py"] := by decide
example : relPathOf "a/b/c.py" = "b/c.py" := by decide
example : relPathOf "b.py" = "b.py" := by decide
example : relPathOf "a/b.py" = "b.py" := by decide
example : pyReplace "a__b__c" "__" "_" = "a_b_c" := by decide
example : pySplitLines "a\nb\n" = ["a", "b"] := by decide
example : pySplitLines "" = [] := by decide
example : pyStrip "  ab " = "ab" := by decide
example : pyLStripSet ['/', '!', '*', ' '] "/// doc" = "doc" := by decide
